import Mathlib

/-!
Verification of the instruction protocol layer of the versatus-javascript
repository: the method dispatcher (`lib/contracts/Contract.ts`), the fluent
instruction builders (`src/lasrctrl/cli-helpers.ts`), and the 18-decimal
fixed-point amount codec.

Stateful TypeScript code is embedded by explicit state passing: each builder
is a record of its private fields, each setter is a function from builder to
builder, and the dispatcher's mutable strategy table is a function from
method name to optional handler.  JavaScript's "call with fewer arguments
than parameters" convention is embedded by giving every stored handler an
`Option`-typed third parameter: `none` plays the role of `undefined`.
-/

/- ===================== Dispatcher (lib/contracts/Contract.ts) ============ -/

/-- Embeds the `contractInput` argument: an object with a `contractFn`
string plus arbitrary further method-specific fields (`rest`). -/
structure ContractInput (P : Type) where
  contractFn : String
  rest : P

/-- Embeds the invocation envelope `{ accountInfo, contractInput }`. -/
structure Input (A P : Type) where
  accountInfo : A
  contractInput : ContractInput P

/-- Embeds `class Contract`: `methodStrategies` is the table from method
name to handler.  A handler takes `(accountInfo, contractInput, prev?)`;
the third argument is `none` when the call site passes only two arguments
(JavaScript `undefined`). -/
structure Contract (A P R : Type) where
  methodStrategies : String → Option (A → ContractInput P → Option R → R)

/-- Embeds `new Contract()`: `this.methodStrategies = {}`. -/
def Contract.new (A P R : Type) : Contract A P R :=
  ⟨fun _ => none⟩

/-- Embeds `Contract.executeMethod`: look up `contractInput.contractFn`;
if a strategy is present invoke it (with two arguments), otherwise throw
`Error("Unknown method: " + contractFn)`.  A thrown error is embedded as
`Except.error` of the message. -/
def Contract.executeMethod {A P R : Type} (c : Contract A P R)
    (accountInfo : A) (contractInput : ContractInput P) : Except String R :=
  match c.methodStrategies contractInput.contractFn with
  | some strategy => Except.ok (strategy accountInfo contractInput none)
  | none => Except.error ("Unknown method: " ++ contractInput.contractFn)

/-- Embeds `Contract.start`: destructure the input and delegate to
`executeMethod`. -/
def Contract.start {A P R : Type} (c : Contract A P R) (input : Input A P) :
    Except String R :=
  c.executeMethod input.accountInfo input.contractInput

/-- Embeds `Contract.addOrExtendMethodStrategy`.  When `extend` is true and
an entry exists, the entry becomes a closure that first runs the original
strategy and then the new one with the original's result as third argument;
otherwise the entry becomes `newStrategyFn` itself. -/
def Contract.addOrExtendMethodStrategy {A P R : Type} (c : Contract A P R)
    (methodName : String) (newStrategyFn : A → ContractInput P → Option R → R)
    (extend : Bool) : Contract A P R :=
  match extend, c.methodStrategies methodName with
  | true, some originalStrategy =>
    ⟨fun n =>
      if n = methodName then
        some (fun accountInfo contractInput _ =>
          newStrategyFn accountInfo contractInput
            (some (originalStrategy accountInfo contractInput none)))
      else c.methodStrategies n⟩
  | _, _ =>
    ⟨fun n => if n = methodName then some newStrategyFn else c.methodStrategies n⟩

/- ===================== Wire values and identity model ==================== -/

/-- Modelled from the spec: the JSON wire values exchanged with the runtime
(spec section 6); the classes producing them live in `lib/programs`, which is
not under `src/`. -/
inductive Json where
  | null : Json
  | str : String → Json
  | arr : List Json → Json
  | obj : List (String × Json) → Json

/-- Modelled from the spec: `Address` wraps an opaque identifier string
(spec section 3; the class lives in `lib/programs/Address-Namespace`, not
under `src/`). -/
structure Address where
  value : String

/-- Modelled from the spec: `AddressOrNamespace` is a closed two-variant
identity reference, either a concrete address or a symbolic namespace label
(spec sections 3 and 4.1). -/
inductive AddressOrNamespace where
  | addr : Address → AddressOrNamespace
  | nspace : String → AddressOrNamespace

/-- Modelled from the spec: an `Address` serializes to its identifier
string. -/
def Address.toJson (a : Address) : Json :=
  Json.str a.value

/-- Modelled from the spec: identity serialization emits exactly one of
`{"address": ...}` or `{"namespace": ...}` (spec sections 4.1 and 6). -/
def AddressOrNamespace.toJson : AddressOrNamespace → Json
  | .addr a => Json.obj [("address", a.toJson)]
  | .nspace label => Json.obj [("namespace", Json.str label)]

/-- A dynamically-typed identity slot as it exists at runtime in the built
instructions: either the unflattened `AddressOrNamespace` wrapper object
passed through by a builder, or the plain JSON variant shape produced by
`toJson` (the TypeScript code casts the latter back to the wrapper type, so
one field holds both shapes). -/
inductive IdentityValue where
  | wrapper : AddressOrNamespace → IdentityValue
  | json : Json → IdentityValue

/-- Modelled from the spec: `TokenUpdateField` describes one targeted
mutation, with a field name, a typed value and an action (spec section 3;
the class lives in `lib/programs/Token`, not under `src/`). -/
structure TokenUpdateField where
  fieldName : String
  value : Json
  action : String

/-- Modelled from the spec: serialization of a `TokenUpdateField` into its
wire object. -/
def TokenUpdateField.toJson (f : TokenUpdateField) : Json :=
  Json.obj [("field", Json.str f.fieldName), ("value", f.value),
            ("action", Json.str f.action)]

/-- Modelled from the spec: a tagged union selecting a token-scoped or a
program-scoped update aggregate (spec section 4.3; the class lives in
`lib/programs`, not under `src/`).  The payload is kept as its wire value. -/
inductive TokenOrProgramUpdate where
  | tokenUpdate : Json → TokenOrProgramUpdate
  | programUpdate : Json → TokenOrProgramUpdate

/-- Modelled from the spec: `TokenDistribution` is a record of the five
constructor arguments `(programId, to, amount, tokenIds, updateFields)`
(spec section 3; the class lives in `lib/programs/Token`, not under `src/`,
and its constructor only stores its arguments).  The identity slots are
dynamically typed (see `IdentityValue`); `updateFields` holds the already
serialized update-field objects the builder produces. -/
structure TokenDistribution where
  programId : Option IdentityValue
  «to» : Option IdentityValue
  amount : Option String
  tokenIds : List String
  updateFields : List Json

/-- Modelled from the spec: the `Create` payload record (spec section 4.3);
the class lives in `lib/programs/Instruction`, not under `src/`, and its
constructor only stores its arguments. -/
structure CreateInstruction where
  programNamespace : Option IdentityValue
  programId : Option IdentityValue
  programOwner : Option Address
  totalSupply : Option String
  initializedSupply : Option String
  distribution : List TokenDistribution

/-- Modelled from the spec: the `Update` payload record (spec section 4.3). -/
structure UpdateInstruction where
  updates : List TokenOrProgramUpdate

/-- Modelled from the spec: the `Transfer` payload record (spec section 4.3). -/
structure TransferInstruction where
  token : Option Address
  transferFrom : Option IdentityValue
  transferTo : Option IdentityValue
  amount : Option String
  ids : List String

/-- Modelled from the spec: the `Burn` payload record (spec section 4.3). -/
structure BurnInstruction where
  caller : Option Address
  programId : Option IdentityValue
  token : Option Address
  burnFrom : Option IdentityValue
  amount : Option String
  tokenIds : List String

/-- The closed set of payloads an `Instruction` can carry. -/
inductive InstructionPayload where
  | create : CreateInstruction → InstructionPayload
  | update : UpdateInstruction → InstructionPayload
  | transfer : TransferInstruction → InstructionPayload
  | burn : BurnInstruction → InstructionPayload

/-- Modelled from the spec: `Instruction` is the pair of a variant tag and
its payload, as produced by `new Instruction(kind, payload)` (spec sections
3 and 4.3; the class lives in `lib/programs/Instruction`, not under
`src/`). -/
structure Instruction where
  kind : String
  value : InstructionPayload

/-- Modelled from the spec: `Outputs` wraps the opaque input passthrough and
the ordered instruction list (spec sections 3 and 4.3). -/
structure Outputs where
  inputs : Option Json
  instructions : List Instruction

/-- Serialization helper for nullable fields: `null` on the wire when
absent. -/
def optJson {α : Type} (f : α → Json) : Option α → Json
  | some v => f v
  | none => Json.null

/-- Serialization of a dynamically-typed identity slot. -/
def IdentityValue.toJson : IdentityValue → Json
  | .wrapper v => v.toJson
  | .json j => j

/-- Modelled from the spec: wire form of a `TokenDistribution`. -/
def TokenDistribution.toJson (d : TokenDistribution) : Json :=
  Json.obj [("programId", optJson IdentityValue.toJson d.programId),
            ("to", optJson IdentityValue.toJson d.«to»),
            ("amount", optJson Json.str d.amount),
            ("tokenIds", Json.arr (d.tokenIds.map Json.str)),
            ("updateFields", Json.arr d.updateFields)]

/-- Modelled from the spec: wire form of a `TokenOrProgramUpdate`. -/
def TokenOrProgramUpdate.toJson : TokenOrProgramUpdate → Json
  | .tokenUpdate j => Json.obj [("tokenUpdate", j)]
  | .programUpdate j => Json.obj [("programUpdate", j)]

/-- Modelled from the spec: wire form of each instruction payload. -/
def InstructionPayload.toJson : InstructionPayload → Json
  | .create c =>
    Json.obj [("programNamespace", optJson IdentityValue.toJson c.programNamespace),
              ("programId", optJson IdentityValue.toJson c.programId),
              ("programOwner", optJson Address.toJson c.programOwner),
              ("totalSupply", optJson Json.str c.totalSupply),
              ("initializedSupply", optJson Json.str c.initializedSupply),
              ("distribution", Json.arr (c.distribution.map TokenDistribution.toJson))]
  | .update u =>
    Json.obj [("updates", Json.arr (u.updates.map TokenOrProgramUpdate.toJson))]
  | .transfer t =>
    Json.obj [("token", optJson Address.toJson t.token),
              ("from", optJson IdentityValue.toJson t.transferFrom),
              ("to", optJson IdentityValue.toJson t.transferTo),
              ("amount", optJson Json.str t.amount),
              ("ids", Json.arr (t.ids.map Json.str))]
  | .burn b =>
    Json.obj [("caller", optJson Address.toJson b.caller),
              ("programId", optJson IdentityValue.toJson b.programId),
              ("token", optJson Address.toJson b.token),
              ("burnFrom", optJson IdentityValue.toJson b.burnFrom),
              ("amount", optJson Json.str b.amount),
              ("tokenIds", Json.arr (b.tokenIds.map Json.str))]

/-- Modelled from the spec: an instruction's wire shape is
`{ <tag>: <payload> }`, the tag being the sole top-level key (spec section
6). -/
def Instruction.toJson (i : Instruction) : Json :=
  Json.obj [(i.kind, i.value.toJson)]

/-- Projection onto the `create` payload of a built instruction. -/
def Instruction.createPayload : Instruction → Option CreateInstruction
  | ⟨_, .create c⟩ => some c
  | _ => none

/-- Projection onto the `update` payload of a built instruction. -/
def Instruction.updatePayload : Instruction → Option UpdateInstruction
  | ⟨_, .update u⟩ => some u
  | _ => none

/-- Projection onto the `transfer` payload of a built instruction. -/
def Instruction.transferPayload : Instruction → Option TransferInstruction
  | ⟨_, .transfer t⟩ => some t
  | _ => none

/-- Projection onto the `burn` payload of a built instruction. -/
def Instruction.burnPayload : Instruction → Option BurnInstruction
  | ⟨_, .burn b⟩ => some b
  | _ => none

/- ============= Builders (src/lasrctrl/cli-helpers.ts, second part) ======= -/

/-- Embeds `class TokenUpdateBuilder`: fields `account`, `token`,
`updates`. -/
structure TokenUpdateBuilder where
  account : Option AddressOrNamespace
  token : Option AddressOrNamespace
  updates : List TokenOrProgramUpdate

/-- Embeds the `TokenUpdateBuilder` constructor. -/
def TokenUpdateBuilder.new : TokenUpdateBuilder :=
  ⟨none, none, []⟩

/-- Embeds `TokenUpdateBuilder.addUpdateAccountAddress`. -/
def TokenUpdateBuilder.addUpdateAccountAddress (b : TokenUpdateBuilder)
    (account : AddressOrNamespace) : TokenUpdateBuilder :=
  { b with account := some account }

/-- Embeds `TokenUpdateBuilder.addTokenAddress`. -/
def TokenUpdateBuilder.addTokenAddress (b : TokenUpdateBuilder)
    (tokenAddress : AddressOrNamespace) : TokenUpdateBuilder :=
  { b with token := some tokenAddress }

/-- Embeds `TokenUpdateBuilder.addUpdateField` (push onto `updates`). -/
def TokenUpdateBuilder.addUpdateField (b : TokenUpdateBuilder)
    (updateField : TokenOrProgramUpdate) : TokenUpdateBuilder :=
  { b with updates := b.updates ++ [updateField] }

/-- Embeds `TokenUpdateBuilder.build`: a `new Instruction('update', new
UpdateInstruction(this.updates.map(update => update)))`. -/
def TokenUpdateBuilder.build (b : TokenUpdateBuilder) : Instruction :=
  ⟨"update", .update ⟨b.updates.map (fun u => u)⟩⟩

/-- Embeds `class TokenDistributionBuilder`: fields `programId`, `to`,
`amount`, `tokenIds`, `updateFields`. -/
structure TokenDistributionBuilder where
  programId : Option AddressOrNamespace
  «to» : Option AddressOrNamespace
  amount : Option String
  tokenIds : List String
  updateFields : List TokenUpdateField

/-- Embeds the `TokenDistributionBuilder` constructor. -/
def TokenDistributionBuilder.new : TokenDistributionBuilder :=
  ⟨none, none, none, [], []⟩

/-- Embeds `TokenDistributionBuilder.setProgramId`. -/
def TokenDistributionBuilder.setProgramId (b : TokenDistributionBuilder)
    (programId : AddressOrNamespace) : TokenDistributionBuilder :=
  { b with programId := some programId }

/-- Embeds `TokenDistributionBuilder.setReceiver`. -/
def TokenDistributionBuilder.setReceiver (b : TokenDistributionBuilder)
    (receiver : AddressOrNamespace) : TokenDistributionBuilder :=
  { b with «to» := some receiver }

/-- Embeds `TokenDistributionBuilder.setAmount`. -/
def TokenDistributionBuilder.setAmount (b : TokenDistributionBuilder)
    (amount : String) : TokenDistributionBuilder :=
  { b with amount := some amount }

/-- Embeds `TokenDistributionBuilder.addTokenId` (push). -/
def TokenDistributionBuilder.addTokenId (b : TokenDistributionBuilder)
    (tokenId : String) : TokenDistributionBuilder :=
  { b with tokenIds := b.tokenIds ++ [tokenId] }

/-- Embeds `TokenDistributionBuilder.extendTokenIds` (push spread). -/
def TokenDistributionBuilder.extendTokenIds (b : TokenDistributionBuilder)
    (items : List String) : TokenDistributionBuilder :=
  { b with tokenIds := b.tokenIds ++ items }

/-- Embeds `TokenDistributionBuilder.addUpdateField` (push). -/
def TokenDistributionBuilder.addUpdateField (b : TokenDistributionBuilder)
    (updateField : TokenUpdateField) : TokenDistributionBuilder :=
  { b with updateFields := b.updateFields ++ [updateField] }

/-- Embeds `TokenDistributionBuilder.extendUpdateFields` (push spread). -/
def TokenDistributionBuilder.extendUpdateFields (b : TokenDistributionBuilder)
    (items : List TokenUpdateField) : TokenDistributionBuilder :=
  { b with updateFields := b.updateFields ++ items }

/-- Embeds `TokenDistributionBuilder.build`: `programId` and `to` go through
`instanceof AddressOrNamespace ? v.toJson() : v ?? null`, `tokenIds` is
mapped identically, and `updateFields` is mapped through `toJson`. -/
def TokenDistributionBuilder.build (b : TokenDistributionBuilder) :
    TokenDistribution :=
  let programId : Option IdentityValue :=
    match b.programId with
    | some v => some (IdentityValue.json v.toJson)
    | none => none
  let «to» : Option IdentityValue :=
    match b.«to» with
    | some v => some (IdentityValue.json v.toJson)
    | none => none
  ⟨programId, «to», b.amount, b.tokenIds.map (fun tokenId => tokenId),
    b.updateFields.map (fun updateField => updateField.toJson)⟩

/-- Embeds `class CreateInstructionBuilder` with its six private fields. -/
structure CreateInstructionBuilder where
  programNamespace : Option AddressOrNamespace
  programId : Option AddressOrNamespace
  programOwner : Option Address
  totalSupply : Option String
  initializedSupply : Option String
  distribution : List TokenDistribution

/-- Embeds the `CreateInstructionBuilder` field initializers. -/
def CreateInstructionBuilder.new : CreateInstructionBuilder :=
  ⟨none, none, none, none, none, []⟩

/-- Embeds `CreateInstructionBuilder.setProgramNamespace`. -/
def CreateInstructionBuilder.setProgramNamespace (b : CreateInstructionBuilder)
    (programNamespace : AddressOrNamespace) : CreateInstructionBuilder :=
  { b with programNamespace := some programNamespace }

/-- Embeds `CreateInstructionBuilder.setProgramId`. -/
def CreateInstructionBuilder.setProgramId (b : CreateInstructionBuilder)
    (programId : AddressOrNamespace) : CreateInstructionBuilder :=
  { b with programId := some programId }

/-- Embeds `CreateInstructionBuilder.setProgramOwner`. -/
def CreateInstructionBuilder.setProgramOwner (b : CreateInstructionBuilder)
    (programOwner : Address) : CreateInstructionBuilder :=
  { b with programOwner := some programOwner }

/-- Embeds `CreateInstructionBuilder.setTotalSupply`. -/
def CreateInstructionBuilder.setTotalSupply (b : CreateInstructionBuilder)
    (totalSupply : String) : CreateInstructionBuilder :=
  { b with totalSupply := some totalSupply }

/-- Embeds `CreateInstructionBuilder.setInitializedSupply`. -/
def CreateInstructionBuilder.setInitializedSupply (b : CreateInstructionBuilder)
    (initializedSupply : String) : CreateInstructionBuilder :=
  { b with initializedSupply := some initializedSupply }

/-- Embeds `CreateInstructionBuilder.addTokenDistribution` (push). -/
def CreateInstructionBuilder.addTokenDistribution (b : CreateInstructionBuilder)
    (tokenDistribution : TokenDistribution) : CreateInstructionBuilder :=
  { b with distribution := b.distribution ++ [tokenDistribution] }

/-- Embeds `CreateInstructionBuilder.extendTokenDistribution` (push spread). -/
def CreateInstructionBuilder.extendTokenDistribution (b : CreateInstructionBuilder)
    (items : List TokenDistribution) : CreateInstructionBuilder :=
  { b with distribution := b.distribution ++ items }

/-- Embeds `CreateInstructionBuilder.build`: `new Instruction('create', new
CreateInstruction(...))` passing every stored field through unchanged (the
`AddressOrNamespace` fields stay wrapper objects). -/
def CreateInstructionBuilder.build (b : CreateInstructionBuilder) : Instruction :=
  ⟨"create",
    .create ⟨b.programNamespace.map IdentityValue.wrapper,
             b.programId.map IdentityValue.wrapper,
             b.programOwner, b.totalSupply, b.initializedSupply,
             b.distribution⟩⟩

/-- Embeds `class UpdateInstructionBuilder` with its `updates` field. -/
structure UpdateInstructionBuilder where
  updates : List TokenOrProgramUpdate

/-- Embeds the `UpdateInstructionBuilder` field initializer. -/
def UpdateInstructionBuilder.new : UpdateInstructionBuilder :=
  ⟨[]⟩

/-- Embeds `UpdateInstructionBuilder.addUpdate` (push). -/
def UpdateInstructionBuilder.addUpdate (b : UpdateInstructionBuilder)
    (update : TokenOrProgramUpdate) : UpdateInstructionBuilder :=
  { b with updates := b.updates ++ [update] }

/-- Embeds `UpdateInstructionBuilder.extendUpdates` (push spread). -/
def UpdateInstructionBuilder.extendUpdates (b : UpdateInstructionBuilder)
    (items : List TokenOrProgramUpdate) : UpdateInstructionBuilder :=
  { b with updates := b.updates ++ items }

/-- Embeds `UpdateInstructionBuilder.build`. -/
def UpdateInstructionBuilder.build (b : UpdateInstructionBuilder) : Instruction :=
  ⟨"update", .update ⟨b.updates⟩⟩

/-- Embeds `class TransferInstructionBuilder` with its five private fields. -/
structure TransferInstructionBuilder where
  token : Option Address
  transferFrom : Option AddressOrNamespace
  transferTo : Option AddressOrNamespace
  amount : Option String
  ids : List String

/-- Embeds the `TransferInstructionBuilder` field initializers. -/
def TransferInstructionBuilder.new : TransferInstructionBuilder :=
  ⟨none, none, none, none, []⟩

/-- Embeds `TransferInstructionBuilder.setTokenAddress`. -/
def TransferInstructionBuilder.setTokenAddress (b : TransferInstructionBuilder)
    (tokenAddress : Address) : TransferInstructionBuilder :=
  { b with token := some tokenAddress }

/-- Embeds `TransferInstructionBuilder.setTransferFrom`. -/
def TransferInstructionBuilder.setTransferFrom (b : TransferInstructionBuilder)
    (transferFrom : AddressOrNamespace) : TransferInstructionBuilder :=
  { b with transferFrom := some transferFrom }

/-- Embeds `TransferInstructionBuilder.setTransferTo`. -/
def TransferInstructionBuilder.setTransferTo (b : TransferInstructionBuilder)
    (transferTo : AddressOrNamespace) : TransferInstructionBuilder :=
  { b with transferTo := some transferTo }

/-- Embeds `TransferInstructionBuilder.setAmount` (the parameter is
`string | null`). -/
def TransferInstructionBuilder.setAmount (b : TransferInstructionBuilder)
    (amount : Option String) : TransferInstructionBuilder :=
  { b with amount := amount }

/-- Embeds `TransferInstructionBuilder.addTokenIds` (push spread of a list). -/
def TransferInstructionBuilder.addTokenIds (b : TransferInstructionBuilder)
    (tokenIds : List String) : TransferInstructionBuilder :=
  { b with ids := b.ids ++ tokenIds }

/-- Embeds `TransferInstructionBuilder.extendTokenIds` (push spread). -/
def TransferInstructionBuilder.extendTokenIds (b : TransferInstructionBuilder)
    (items : List String) : TransferInstructionBuilder :=
  { b with ids := b.ids ++ items }

/-- Embeds `TransferInstructionBuilder.build`: `const token = this.token ??
null`, then `new Instruction('transfer', new TransferInstruction(...))`
passing the stored fields through unchanged. -/
def TransferInstructionBuilder.build (b : TransferInstructionBuilder) :
    Instruction :=
  let token := b.token
  ⟨"transfer",
    .transfer ⟨token, b.transferFrom.map IdentityValue.wrapper,
               b.transferTo.map IdentityValue.wrapper, b.amount, b.ids⟩⟩

/-- Embeds `class BurnInstructionBuilder` with its six private fields. -/
structure BurnInstructionBuilder where
  caller : Option Address
  programId : Option AddressOrNamespace
  token : Option Address
  burnFrom : Option AddressOrNamespace
  amount : Option String
  tokenIds : List String

/-- Embeds the `BurnInstructionBuilder` field initializers. -/
def BurnInstructionBuilder.new : BurnInstructionBuilder :=
  ⟨none, none, none, none, none, []⟩

/-- Embeds `BurnInstructionBuilder.setCaller`. -/
def BurnInstructionBuilder.setCaller (b : BurnInstructionBuilder)
    (caller : Address) : BurnInstructionBuilder :=
  { b with caller := some caller }

/-- Embeds `BurnInstructionBuilder.setProgramId`. -/
def BurnInstructionBuilder.setProgramId (b : BurnInstructionBuilder)
    (programId : AddressOrNamespace) : BurnInstructionBuilder :=
  { b with programId := some programId }

/-- Embeds `BurnInstructionBuilder.setTokenAddress`. -/
def BurnInstructionBuilder.setTokenAddress (b : BurnInstructionBuilder)
    (tokenAddress : Address) : BurnInstructionBuilder :=
  { b with token := some tokenAddress }

/-- Embeds `BurnInstructionBuilder.setBurnFromAddress`. -/
def BurnInstructionBuilder.setBurnFromAddress (b : BurnInstructionBuilder)
    (burnFromAddress : AddressOrNamespace) : BurnInstructionBuilder :=
  { b with burnFrom := some burnFromAddress }

/-- Embeds `BurnInstructionBuilder.setAmount`. -/
def BurnInstructionBuilder.setAmount (b : BurnInstructionBuilder)
    (amount : String) : BurnInstructionBuilder :=
  { b with amount := some amount }

/-- Embeds `BurnInstructionBuilder.addTokenId` (push). -/
def BurnInstructionBuilder.addTokenId (b : BurnInstructionBuilder)
    (tokenId : String) : BurnInstructionBuilder :=
  { b with tokenIds := b.tokenIds ++ [tokenId] }

/-- Embeds `BurnInstructionBuilder.extendTokenIds` (push spread). -/
def BurnInstructionBuilder.extendTokenIds (b : BurnInstructionBuilder)
    (items : List String) : BurnInstructionBuilder :=
  { b with tokenIds := b.tokenIds ++ items }

/-- Embeds `BurnInstructionBuilder.build`: `new Instruction('burn', new
BurnInstruction(...))` passing the stored fields through unchanged. -/
def BurnInstructionBuilder.build (b : BurnInstructionBuilder) : Instruction :=
  ⟨"burn",
    .burn ⟨b.caller, b.programId.map IdentityValue.wrapper, b.token,
           b.burnFrom.map IdentityValue.wrapper, b.amount, b.tokenIds⟩⟩

/-- Embeds `class OutputBuilder`: fields `inputs` (initially null) and
`instructions`. -/
structure OutputBuilder where
  inputs : Option Json
  instructions : List Instruction

/-- Embeds the `OutputBuilder` field initializers. -/
def OutputBuilder.new : OutputBuilder :=
  ⟨none, []⟩

/-- Embeds `OutputBuilder.setInputs`. -/
def OutputBuilder.setInputs (b : OutputBuilder) (inputs : Json) :
    OutputBuilder :=
  { b with inputs := some inputs }

/-- Embeds `OutputBuilder.addInstruction` (push). -/
def OutputBuilder.addInstruction (b : OutputBuilder)
    (instruction : Instruction) : OutputBuilder :=
  { b with instructions := b.instructions ++ [instruction] }

/-- Embeds `OutputBuilder.build`: `new Outputs(this.inputs,
this.instructions)`. -/
def OutputBuilder.build (b : OutputBuilder) : Outputs :=
  ⟨b.inputs, b.instructions⟩

/- ============== State-passing form of the build() methods ================ -/

/-- State-passing form of `TokenUpdateBuilder.build`: the method body only
reads the builder's fields (no assignment to `this`), so the post-state is
the pre-state. -/
def TokenUpdateBuilder.buildStep (b : TokenUpdateBuilder) :
    Instruction × TokenUpdateBuilder :=
  (b.build, b)

/-- State-passing form of `TokenDistributionBuilder.build`: the body reads
fields and maps over copies; it contains no assignment to `this`. -/
def TokenDistributionBuilder.buildStep (b : TokenDistributionBuilder) :
    TokenDistribution × TokenDistributionBuilder :=
  (b.build, b)

/-- State-passing form of `CreateInstructionBuilder.build` (reads only). -/
def CreateInstructionBuilder.buildStep (b : CreateInstructionBuilder) :
    Instruction × CreateInstructionBuilder :=
  (b.build, b)

/-- State-passing form of `UpdateInstructionBuilder.build` (reads only). -/
def UpdateInstructionBuilder.buildStep (b : UpdateInstructionBuilder) :
    Instruction × UpdateInstructionBuilder :=
  (b.build, b)

/-- State-passing form of `TransferInstructionBuilder.build` (reads only). -/
def TransferInstructionBuilder.buildStep (b : TransferInstructionBuilder) :
    Instruction × TransferInstructionBuilder :=
  (b.build, b)

/-- State-passing form of `BurnInstructionBuilder.build` (reads only). -/
def BurnInstructionBuilder.buildStep (b : BurnInstructionBuilder) :
    Instruction × BurnInstructionBuilder :=
  (b.build, b)

/-- State-passing form of `OutputBuilder.build` (reads only). -/
def OutputBuilder.buildStep (b : OutputBuilder) : Outputs × OutputBuilder :=
  (b.build, b)

/- ============== Deep embedding of arbitrary setter-call sequences ======== -/

/-- One setter call on a `CreateInstructionBuilder`. -/
inductive CreateOp where
  | setProgramNamespace : AddressOrNamespace → CreateOp
  | setProgramId : AddressOrNamespace → CreateOp
  | setProgramOwner : Address → CreateOp
  | setTotalSupply : String → CreateOp
  | setInitializedSupply : String → CreateOp
  | addTokenDistribution : TokenDistribution → CreateOp
  | extendTokenDistribution : List TokenDistribution → CreateOp

/-- Run one `CreateOp` against a builder. -/
def CreateOp.apply (op : CreateOp) (b : CreateInstructionBuilder) :
    CreateInstructionBuilder :=
  match op with
  | .setProgramNamespace v => b.setProgramNamespace v
  | .setProgramId v => b.setProgramId v
  | .setProgramOwner v => b.setProgramOwner v
  | .setTotalSupply v => b.setTotalSupply v
  | .setInitializedSupply v => b.setInitializedSupply v
  | .addTokenDistribution v => b.addTokenDistribution v
  | .extendTokenDistribution vs => b.extendTokenDistribution vs

/-- Run a call sequence against a fresh `CreateInstructionBuilder`. -/
def runCreateOps (ops : List CreateOp) : CreateInstructionBuilder :=
  ops.foldl (fun b op => op.apply b) CreateInstructionBuilder.new

/-- Does the call target the `programNamespace` field? -/
def CreateOp.touchesProgramNamespace : CreateOp → Bool
  | .setProgramNamespace _ => true
  | _ => false

/-- Does the call target the `programId` field? -/
def CreateOp.touchesProgramId : CreateOp → Bool
  | .setProgramId _ => true
  | _ => false

/-- Does the call target the `programOwner` field? -/
def CreateOp.touchesProgramOwner : CreateOp → Bool
  | .setProgramOwner _ => true
  | _ => false

/-- Does the call target the `totalSupply` field? -/
def CreateOp.touchesTotalSupply : CreateOp → Bool
  | .setTotalSupply _ => true
  | _ => false

/-- Does the call target the `initializedSupply` field? -/
def CreateOp.touchesInitializedSupply : CreateOp → Bool
  | .setInitializedSupply _ => true
  | _ => false

/-- Does the call target the `distribution` list? -/
def CreateOp.touchesDistribution : CreateOp → Bool
  | .addTokenDistribution _ => true
  | .extendTokenDistribution _ => true
  | _ => false

/-- One setter call on a `TransferInstructionBuilder`. -/
inductive TransferOp where
  | setTokenAddress : Address → TransferOp
  | setTransferFrom : AddressOrNamespace → TransferOp
  | setTransferTo : AddressOrNamespace → TransferOp
  | setAmount : Option String → TransferOp
  | addTokenIds : List String → TransferOp
  | extendTokenIds : List String → TransferOp

/-- Run one `TransferOp` against a builder. -/
def TransferOp.apply (op : TransferOp) (b : TransferInstructionBuilder) :
    TransferInstructionBuilder :=
  match op with
  | .setTokenAddress v => b.setTokenAddress v
  | .setTransferFrom v => b.setTransferFrom v
  | .setTransferTo v => b.setTransferTo v
  | .setAmount v => b.setAmount v
  | .addTokenIds vs => b.addTokenIds vs
  | .extendTokenIds vs => b.extendTokenIds vs

/-- Run a call sequence against a fresh `TransferInstructionBuilder`. -/
def runTransferOps (ops : List TransferOp) : TransferInstructionBuilder :=
  ops.foldl (fun b op => op.apply b) TransferInstructionBuilder.new

/-- Does the call target the `token` field? -/
def TransferOp.touchesToken : TransferOp → Bool
  | .setTokenAddress _ => true
  | _ => false

/-- Does the call target the `transferFrom` field? -/
def TransferOp.touchesTransferFrom : TransferOp → Bool
  | .setTransferFrom _ => true
  | _ => false

/-- Does the call target the `transferTo` field? -/
def TransferOp.touchesTransferTo : TransferOp → Bool
  | .setTransferTo _ => true
  | _ => false

/-- Does the call target the `amount` field? -/
def TransferOp.touchesAmount : TransferOp → Bool
  | .setAmount _ => true
  | _ => false

/-- Does the call target the `ids` list? -/
def TransferOp.touchesIds : TransferOp → Bool
  | .addTokenIds _ => true
  | .extendTokenIds _ => true
  | _ => false

/-- One setter call on a `BurnInstructionBuilder`. -/
inductive BurnOp where
  | setCaller : Address → BurnOp
  | setProgramId : AddressOrNamespace → BurnOp
  | setTokenAddress : Address → BurnOp
  | setBurnFromAddress : AddressOrNamespace → BurnOp
  | setAmount : String → BurnOp
  | addTokenId : String → BurnOp
  | extendTokenIds : List String → BurnOp

/-- Run one `BurnOp` against a builder. -/
def BurnOp.apply (op : BurnOp) (b : BurnInstructionBuilder) :
    BurnInstructionBuilder :=
  match op with
  | .setCaller v => b.setCaller v
  | .setProgramId v => b.setProgramId v
  | .setTokenAddress v => b.setTokenAddress v
  | .setBurnFromAddress v => b.setBurnFromAddress v
  | .setAmount v => b.setAmount v
  | .addTokenId v => b.addTokenId v
  | .extendTokenIds vs => b.extendTokenIds vs

/-- Run a call sequence against a fresh `BurnInstructionBuilder`. -/
def runBurnOps (ops : List BurnOp) : BurnInstructionBuilder :=
  ops.foldl (fun b op => op.apply b) BurnInstructionBuilder.new

/-- Does the call target the `caller` field? -/
def BurnOp.touchesCaller : BurnOp → Bool
  | .setCaller _ => true
  | _ => false

/-- Does the call target the `programId` field? -/
def BurnOp.touchesProgramId : BurnOp → Bool
  | .setProgramId _ => true
  | _ => false

/-- Does the call target the `token` field? -/
def BurnOp.touchesToken : BurnOp → Bool
  | .setTokenAddress _ => true
  | _ => false

/-- Does the call target the `burnFrom` field? -/
def BurnOp.touchesBurnFrom : BurnOp → Bool
  | .setBurnFromAddress _ => true
  | _ => false

/-- Does the call target the `amount` field? -/
def BurnOp.touchesAmount : BurnOp → Bool
  | .setAmount _ => true
  | _ => false

/-- Does the call target the `tokenIds` list? -/
def BurnOp.touchesTokenIds : BurnOp → Bool
  | .addTokenId _ => true
  | .extendTokenIds _ => true
  | _ => false

/-- One setter call on a `TokenDistributionBuilder`. -/
inductive DistributionOp where
  | setProgramId : AddressOrNamespace → DistributionOp
  | setReceiver : AddressOrNamespace → DistributionOp
  | setAmount : String → DistributionOp
  | addTokenId : String → DistributionOp
  | extendTokenIds : List String → DistributionOp
  | addUpdateField : TokenUpdateField → DistributionOp
  | extendUpdateFields : List TokenUpdateField → DistributionOp

/-- Run one `DistributionOp` against a builder. -/
def DistributionOp.apply (op : DistributionOp) (b : TokenDistributionBuilder) :
    TokenDistributionBuilder :=
  match op with
  | .setProgramId v => b.setProgramId v
  | .setReceiver v => b.setReceiver v
  | .setAmount v => b.setAmount v
  | .addTokenId v => b.addTokenId v
  | .extendTokenIds vs => b.extendTokenIds vs
  | .addUpdateField v => b.addUpdateField v
  | .extendUpdateFields vs => b.extendUpdateFields vs

/-- Run a call sequence against a fresh `TokenDistributionBuilder`. -/
def runDistributionOps (ops : List DistributionOp) : TokenDistributionBuilder :=
  ops.foldl (fun b op => op.apply b) TokenDistributionBuilder.new

/-- Does the call target the `programId` field? -/
def DistributionOp.touchesProgramId : DistributionOp → Bool
  | .setProgramId _ => true
  | _ => false

/-- Does the call target the `to` field? -/
def DistributionOp.touchesReceiver : DistributionOp → Bool
  | .setReceiver _ => true
  | _ => false

/-- Does the call target the `amount` field? -/
def DistributionOp.touchesAmount : DistributionOp → Bool
  | .setAmount _ => true
  | _ => false

/-- Does the call target the `tokenIds` list? -/
def DistributionOp.touchesTokenIds : DistributionOp → Bool
  | .addTokenId _ => true
  | .extendTokenIds _ => true
  | _ => false

/-- Does the call target the `updateFields` list? -/
def DistributionOp.touchesUpdateFields : DistributionOp → Bool
  | .addUpdateField _ => true
  | .extendUpdateFields _ => true
  | _ => false

/-- One setter call on an `UpdateInstructionBuilder`. -/
inductive UpdateOp where
  | addUpdate : TokenOrProgramUpdate → UpdateOp
  | extendUpdates : List TokenOrProgramUpdate → UpdateOp

/-- Run one `UpdateOp` against a builder. -/
def UpdateOp.apply (op : UpdateOp) (b : UpdateInstructionBuilder) :
    UpdateInstructionBuilder :=
  match op with
  | .addUpdate v => b.addUpdate v
  | .extendUpdates vs => b.extendUpdates vs

/-- Run a call sequence against a fresh `UpdateInstructionBuilder`. -/
def runUpdateOps (ops : List UpdateOp) : UpdateInstructionBuilder :=
  ops.foldl (fun b op => op.apply b) UpdateInstructionBuilder.new

/-- Does the call target the `updates` list? -/
def UpdateOp.touchesUpdates : UpdateOp → Bool
  | .addUpdate _ => true
  | .extendUpdates _ => true

/-- One setter call on an `OutputBuilder`. -/
inductive OutputOp where
  | setInputs : Json → OutputOp
  | addInstruction : Instruction → OutputOp

/-- Run one `OutputOp` against a builder. -/
def OutputOp.apply (op : OutputOp) (b : OutputBuilder) : OutputBuilder :=
  match op with
  | .setInputs v => b.setInputs v
  | .addInstruction v => b.addInstruction v

/-- Run a call sequence against a fresh `OutputBuilder`. -/
def runOutputOps (ops : List OutputOp) : OutputBuilder :=
  ops.foldl (fun b op => op.apply b) OutputBuilder.new

/-- Does the call target the `inputs` field? -/
def OutputOp.touchesInputs : OutputOp → Bool
  | .setInputs _ => true
  | _ => false

/-- Does the call target the `instructions` list? -/
def OutputOp.touchesInstructions : OutputOp → Bool
  | .addInstruction _ => true
  | _ => false

/- =================== Numeric codec (amount <-> hex) ====================== -/

/-- Little-endian base-`b` digits of `n`, with explicit fuel (the fuel is
always instantiated with `n` itself, which bounds the digit count). -/
def toDigitsRevAux (b : Nat) (fuel n : Nat) : List Nat :=
  match fuel with
  | 0 => []
  | fuel' + 1 => if n = 0 then [] else (n % b) :: toDigitsRevAux b fuel' (n / b)

/-- Big-endian base-`b` digits of `n` (empty for `n = 0`). -/
def natDigits (b n : Nat) : List Nat :=
  (toDigitsRevAux b n n).reverse

/-- The character for a decimal digit value (`0` to `9`). -/
def digitChar (d : Nat) : Char :=
  Char.ofNat (48 + d)

/-- The lower-case character for a hexadecimal digit value (`0` to `15`). -/
def hexChar (d : Nat) : Char :=
  if d < 10 then Char.ofNat (48 + d) else Char.ofNat (87 + d)

/-- The value of a decimal digit character, or `none`. -/
def decDigitVal (c : Char) : Option Nat :=
  if 48 ≤ c.toNat ∧ c.toNat ≤ 57 then some (c.toNat - 48) else none

/-- The value of a hexadecimal digit character (either case), or `none`. -/
def hexDigitVal (c : Char) : Option Nat :=
  if 48 ≤ c.toNat ∧ c.toNat ≤ 57 then some (c.toNat - 48)
  else if 97 ≤ c.toNat ∧ c.toNat ≤ 102 then some (c.toNat - 87)
  else if 65 ≤ c.toNat ∧ c.toNat ≤ 70 then some (c.toNat - 55)
  else none

/-- Fold a digit string into the integer it denotes in base `base`,
rejecting any character `dv` does not accept. -/
def parseDigitsAux (base : Nat) (dv : Char → Option Nat) (cs : List Char)
    (acc : Nat) : Option Nat :=
  match cs with
  | [] => some acc
  | c :: cs' =>
    match dv c with
    | some v => parseDigitsAux base dv cs' (acc * base + v)
    | none => none

/-- Split a character list at the first `'.'`: the integer part, and the
fractional part when a dot is present. -/
def splitAtDot (cs : List Char) : List Char × Option (List Char) :=
  match cs with
  | [] => ([], none)
  | c :: cs' =>
    if c = '.' then ([], some cs')
    else
      let r := splitAtDot cs'
      (c :: r.1, r.2)

/-- Modelled from the spec: render an arbitrary-precision integer as
lower-case hex, zero-padded to 64 digits, with a `0x` prefix (spec sections
4.5 and 6; `formatAmountToHex`'s rendering step lives in `lib/utils`, not
under `src/`). -/
def natToHex64 (n : Nat) : String :=
  let ds := (natDigits 16 n).map hexChar
  "0x" ++ String.mk (List.replicate (64 - ds.length) '0' ++ ds)

/-- Modelled from the spec: `formatAmountToHex` from `lib/utils` (not under
`src/`): parse the integer and fractional parts separately, right-pad or
truncate the fractional part to exactly 18 digits, concatenate into a
single arbitrary-precision integer, and render as lower-case hex padded to
64 characters with a `0x` prefix; malformed (non-digit) input is rejected
(`none`). -/
def formatAmountToHex (amount : String) : Option String :=
  let p := splitAtDot amount.data
  let fp := p.2.getD []
  let fp18 := (fp ++ List.replicate 18 '0').take 18
  (parseDigitsAux 10 decDigitVal (p.1 ++ fp18) 0).map natToHex64

/-- Decimal rendering of an arbitrary-precision integer. -/
def decString (n : Nat) : String :=
  if n = 0 then "0" else String.mk ((natDigits 10 n).map digitChar)

/-- Modelled from the spec: render a scaled 10^18 fixed-point integer as a
decimal string at full 18-digit precision with insignificant trailing
zeros trimmed (the hex-to-amount direction of the codec, spec section
4.5). -/
def renderAmount (n : Nat) : String :=
  let ip := n / 10 ^ 18
  let fp := n % 10 ^ 18
  let fpDigits := (natDigits 10 fp).map digitChar
  let fp18 := List.replicate (18 - fpDigits.length) '0' ++ fpDigits
  let trimmed := (fp18.reverse.dropWhile (fun c => c = '0')).reverse
  if trimmed.isEmpty then decString ip
  else decString ip ++ "." ++ String.mk trimmed

/-- Modelled from the spec: `formatHexToAmount` from `lib/utils` (not under
`src/`): strip the `0x` prefix, read the 256-bit big-endian hex integer,
and render it as a decimal string (default full 18-digit precision,
trailing zeros trimmed); malformed (non-hex-digit) input is rejected. -/
def formatHexToAmount (hex : String) : Option String :=
  let cs :=
    match hex.data with
    | '0' :: 'x' :: rest => rest
    | other => other
  (parseDigitsAux 16 hexDigitVal cs 0).map renderAmount

/-- Follows the spec's words for the claimed round-trip property: the
canonical form of a decimal string strips insignificant trailing zeros
(of the fractional part, dropping the dot when nothing remains). -/
def canonicalAmount (d : String) : String :=
  match splitAtDot d.data with
  | (_, none) => d
  | (ip, some fp) =>
    let trimmed := (fp.reverse.dropWhile (fun c => c = '0')).reverse
    if trimmed.isEmpty then String.mk ip
    else String.mk ip ++ "." ++ String.mk trimmed

/-- The value of a little-endian digit list in base `b`. -/
def ofRevDigits (b : Nat) : List Nat → Nat
  | [] => 0
  | d :: ds => d + b * ofRevDigits b ds

/-- The value of a big-endian digit list in base `b`. -/
def valBE (b : Nat) (ds : List Nat) : Nat :=
  ds.foldl (fun a d => a * b + d) 0

/- ======================= Helper lemmas =================================== -/

/-- Characterization of `TokenDistributionBuilder.build` as a pure record
map over the builder's fields. -/
lemma TokenDistributionBuilder.build_eq (b : TokenDistributionBuilder) :
    b.build = ⟨b.programId.map (fun v => IdentityValue.json v.toJson),
               b.«to».map (fun v => IdentityValue.json v.toJson),
               b.amount, b.tokenIds,
               b.updateFields.map TokenUpdateField.toJson⟩ := by
  cases hp : b.programId <;> cases ht : b.«to» <;>
    simp [TokenDistributionBuilder.build, hp, ht]

/-- Folding `addInstruction` over a list appends the list to the
accumulated instructions. -/
lemma OutputBuilder.foldl_addInstruction (b : OutputBuilder)
    (is : List Instruction) :
    (is.foldl OutputBuilder.addInstruction b).instructions =
      b.instructions ++ is := by
  induction is generalizing b with
  | nil => simp
  | cons i is ih => simp [ih, OutputBuilder.addInstruction]

/-- A projection that no operation of a call sequence touches is preserved
by folding the sequence. -/
lemma foldl_proj_eq {σ ω β : Type _} (step : σ → ω → σ) (proj : σ → β)
    (touches : ω → Bool)
    (hstep : ∀ s op, touches op = false → proj (step s op) = proj s) :
    ∀ (ops : List ω) (s : σ), (∀ op ∈ ops, touches op = false) →
      proj (ops.foldl step s) = proj s := by
  intro ops
  induction ops with
  | nil => intro s _; rfl
  | cons op ops ih =>
    intro s h
    rw [List.foldl_cons,
      ih _ (fun o ho => h o (List.mem_cons_of_mem _ ho)),
      hstep _ _ (h op (List.mem_cons_self op ops))]

/- ======================= Claim theorems: dispatcher ====================== -/

/-- C1: Dispatcher composition order.  Registering a base handler `f` for
method `m`, then extending with `h1` and again with `h2` (`extend = true`
each time), makes invoking `m` produce
`h2 (accountInfo, contractInput, h1 (accountInfo, contractInput, R0))`
where `R0` is the base handler's result: the first-registered handler runs
innermost and each stage receives the previous stage's result as its third
argument. -/
theorem contract_extend_composes_innermost_first {A P R : Type}
    (c0 : Contract A P R) (m : String)
    (f h1 h2 : A → ContractInput P → Option R → R) (a : A) (p : P) :
    ((((c0.addOrExtendMethodStrategy m f false).addOrExtendMethodStrategy
          m h1 true).addOrExtendMethodStrategy m h2 true).start
        ⟨a, ⟨m, p⟩⟩)
      = Except.ok (h2 a ⟨m, p⟩ (some (h1 a ⟨m, p⟩ (some (f a ⟨m, p⟩ none))))) := by
  simp [Contract.start, Contract.executeMethod, Contract.addOrExtendMethodStrategy]

/-- C2: Unknown method is a terminal error.  When `contractFn` is not in
the table, `executeMethod` fails with an error message naming that exact
method and never returns a value; when it is registered, the registered
handler's result is returned unchanged; and `start` delegates to
`executeMethod`. -/
theorem contract_unknown_method_is_terminal {A P R : Type}
    (c : Contract A P R) (a : A) (ci : ContractInput P) :
    (c.methodStrategies ci.contractFn = none →
        c.executeMethod a ci
            = Except.error ("Unknown method: " ++ ci.contractFn)
          ∧ ∀ r : R, c.executeMethod a ci ≠ Except.ok r)
      ∧ (∀ s, c.methodStrategies ci.contractFn = some s →
          c.executeMethod a ci = Except.ok (s a ci none))
      ∧ c.start ⟨a, ci⟩ = c.executeMethod a ci := by
  refine ⟨fun h => ⟨?_, ?_⟩, fun s h => ?_, rfl⟩
  · simp [Contract.executeMethod, h]
  · intro r hr
    simp [Contract.executeMethod, h] at hr
  · simp [Contract.executeMethod, h]

/-- Witness for C2 at a concrete contract: a fresh table rejects `"mint"`
with the exact message, and a registered `"mint"` handler's result is
returned. -/
theorem contract_unknown_method_is_terminal_witness :
    ((Contract.new Unit Unit Nat).executeMethod () ⟨"mint", ()⟩
        = Except.error ("Unknown method: " ++ "mint"))
      ∧ (((Contract.new Unit Unit Nat).addOrExtendMethodStrategy "mint"
            (fun _ _ _ => 42) false).executeMethod () ⟨"mint", ()⟩
          = Except.ok 42) := by
  constructor
  · exact ((contract_unknown_method_is_terminal (Contract.new Unit Unit Nat)
      () ⟨"mint", ()⟩).1 rfl).1
  · exact (contract_unknown_method_is_terminal
      ((Contract.new Unit Unit Nat).addOrExtendMethodStrategy "mint"
        (fun _ _ _ => 42) false) () ⟨"mint", ()⟩).2.1 (fun _ _ _ => 42)
      (by simp [Contract.new, Contract.addOrExtendMethodStrategy])

/-- C9: Registration replace semantics.  With `extend = false`, or with any
`extend` value when no entry exists for the name, the table entry becomes
exactly the new handler, with no wrapping or composing. -/
theorem contract_register_replaces_entry {A P R : Type} (c : Contract A P R)
    (m : String) (h : A → ContractInput P → Option R → R) (extend : Bool)
    (hrep : extend = false ∨ c.methodStrategies m = none) :
    (c.addOrExtendMethodStrategy m h extend).methodStrategies m = some h := by
  rcases hrep with rfl | hnone
  · simp [Contract.addOrExtendMethodStrategy]
  · cases extend <;> simp [Contract.addOrExtendMethodStrategy, hnone]

/-- Witness for C9: registering on a fresh table with `extend = true` still
installs the handler itself (no entry existed). -/
theorem contract_register_replaces_entry_witness :
    ((Contract.new Unit Unit Nat).addOrExtendMethodStrategy "m"
        (fun _ _ _ => 1) true).methodStrategies "m"
      = some (fun _ _ _ => 1) :=
  contract_register_replaces_entry (Contract.new Unit Unit Nat) "m"
    (fun _ _ _ => 1) true (Or.inr rfl)

/- ======================= Claim theorems: builders ======================== -/

/-- C3 counterexample: `CreateInstructionBuilder.build` does not convert the
`AddressOrNamespace` it was given into its flattened wire variant shape —
the built instruction still holds the unflattened wrapper object, which
differs from the `toJson` variant shape the claim requires. -/
theorem create_builder_keeps_wrapper_counterexample :
    ((CreateInstructionBuilder.new.setProgramId
          (AddressOrNamespace.addr ⟨"0xabc"⟩)).build).createPayload.map
        (fun c => c.programId)
      = some (some (IdentityValue.wrapper (AddressOrNamespace.addr ⟨"0xabc"⟩)))
    ∧ IdentityValue.wrapper (AddressOrNamespace.addr ⟨"0xabc"⟩)
        ≠ IdentityValue.json (AddressOrNamespace.addr ⟨"0xabc"⟩).toJson :=
  ⟨rfl, fun h => nomatch h⟩

/-- C3 (amended): only `TokenDistributionBuilder.build` normalizes the
`AddressOrNamespace` values it was given (its `programId` and `to` fields)
into their canonical wire variant shape via `toJson`;
`CreateInstructionBuilder`, `TransferInstructionBuilder` and
`BurnInstructionBuilder` pass every `AddressOrNamespace` through to the
built instruction as the unflattened wrapper value. -/
theorem builders_identity_normalization :
    (∀ b : TokenDistributionBuilder,
        (b.build).programId
            = b.programId.map (fun v => IdentityValue.json v.toJson)
          ∧ (b.build).«to»
            = b.«to».map (fun v => IdentityValue.json v.toJson))
      ∧ (∀ b : CreateInstructionBuilder,
          b.build = ⟨"create",
            .create ⟨b.programNamespace.map IdentityValue.wrapper,
                     b.programId.map IdentityValue.wrapper,
                     b.programOwner, b.totalSupply, b.initializedSupply,
                     b.distribution⟩⟩)
      ∧ (∀ b : TransferInstructionBuilder,
          b.build = ⟨"transfer",
            .transfer ⟨b.token, b.transferFrom.map IdentityValue.wrapper,
                       b.transferTo.map IdentityValue.wrapper, b.amount,
                       b.ids⟩⟩)
      ∧ (∀ b : BurnInstructionBuilder,
          b.build = ⟨"burn",
            .burn ⟨b.caller, b.programId.map IdentityValue.wrapper, b.token,
                   b.burnFrom.map IdentityValue.wrapper, b.amount,
                   b.tokenIds⟩⟩) := by
  refine ⟨fun b => ?_, fun b => rfl, fun b => rfl, fun b => rfl⟩
  rw [TokenDistributionBuilder.build_eq]
  exact ⟨rfl, rfl⟩

/-- C5: Tag fidelity.  Every completed Create/Update (including
`TokenUpdateBuilder`)/Transfer/Burn builder produces an `Instruction` whose
tag is exactly the lower-case string `create`/`update`/`transfer`/`burn`,
and whose serialized wire object has that tag as its sole top-level key. -/
theorem instruction_tag_fidelity :
    (∀ b : CreateInstructionBuilder, (b.build).kind = "create"
        ∧ (b.build).toJson = Json.obj [("create", (b.build).value.toJson)])
      ∧ (∀ b : UpdateInstructionBuilder, (b.build).kind = "update"
        ∧ (b.build).toJson = Json.obj [("update", (b.build).value.toJson)])
      ∧ (∀ b : TokenUpdateBuilder, (b.build).kind = "update"
        ∧ (b.build).toJson = Json.obj [("update", (b.build).value.toJson)])
      ∧ (∀ b : TransferInstructionBuilder, (b.build).kind = "transfer"
        ∧ (b.build).toJson = Json.obj [("transfer", (b.build).value.toJson)])
      ∧ (∀ b : BurnInstructionBuilder, (b.build).kind = "burn"
        ∧ (b.build).toJson = Json.obj [("burn", (b.build).value.toJson)]) :=
  ⟨fun _ => ⟨rfl, rfl⟩, fun _ => ⟨rfl, rfl⟩, fun _ => ⟨rfl, rfl⟩,
   fun _ => ⟨rfl, rfl⟩, fun _ => ⟨rfl, rfl⟩⟩

/-- C6: list-accumulating builder operations append to the existing list
without removing or reordering previous items, and `build()` emits each
list in exact insertion order (for `Outputs.instructions`, the order in
which `addInstruction` was called). -/
theorem builder_lists_accumulate_in_order :
    (∀ (b : TokenDistributionBuilder) (t : String),
        (b.addTokenId t).tokenIds = b.tokenIds ++ [t])
      ∧ (∀ (b : TokenDistributionBuilder) (ts : List String),
          (b.extendTokenIds ts).tokenIds = b.tokenIds ++ ts)
      ∧ (∀ (b : TokenDistributionBuilder) (u : TokenUpdateField),
          (b.addUpdateField u).updateFields = b.updateFields ++ [u])
      ∧ (∀ (b : TokenDistributionBuilder) (us : List TokenUpdateField),
          (b.extendUpdateFields us).updateFields = b.updateFields ++ us)
      ∧ (∀ b : TokenDistributionBuilder, (b.build).tokenIds = b.tokenIds
          ∧ (b.build).updateFields
            = b.updateFields.map TokenUpdateField.toJson)
      ∧ (∀ (b : CreateInstructionBuilder) (d : TokenDistribution),
          (b.addTokenDistribution d).distribution = b.distribution ++ [d])
      ∧ (∀ (b : CreateInstructionBuilder) (ds : List TokenDistribution),
          (b.extendTokenDistribution ds).distribution = b.distribution ++ ds)
      ∧ (∀ b : CreateInstructionBuilder,
          (b.build).createPayload.map (fun c => c.distribution)
            = some b.distribution)
      ∧ (∀ (b : UpdateInstructionBuilder) (u : TokenOrProgramUpdate),
          (b.addUpdate u).updates = b.updates ++ [u])
      ∧ (∀ (b : UpdateInstructionBuilder) (us : List TokenOrProgramUpdate),
          (b.extendUpdates us).updates = b.updates ++ us)
      ∧ (∀ b : UpdateInstructionBuilder,
          (b.build).updatePayload.map (fun u => u.updates) = some b.updates)
      ∧ (∀ (b : OutputBuilder) (i : Instruction),
          (b.addInstruction i).instructions = b.instructions ++ [i])
      ∧ (∀ b : OutputBuilder, (b.build).instructions = b.instructions)
      ∧ (∀ is : List Instruction,
          ((is.foldl OutputBuilder.addInstruction
              OutputBuilder.new).build).instructions = is) := by
  refine ⟨fun b t => rfl, fun b ts => rfl, fun b u => rfl, fun b us => rfl,
    fun b => ⟨?_, rfl⟩, fun b d => rfl, fun b ds => rfl, fun b => rfl,
    fun b u => rfl, fun b us => rfl, fun b => rfl, fun b i => rfl,
    fun b => rfl, fun is => ?_⟩
  · rw [TokenDistributionBuilder.build_eq]
  · simp [OutputBuilder.build, OutputBuilder.foldl_addInstruction,
      OutputBuilder.new]

/-- C10: `build()` is idempotent and leaves the builder unchanged: in
state-passing form the post-state equals the pre-state, two consecutive
builds return the same value, and a setter applied after a build acts on
the same accumulated state as before the build. -/
theorem build_is_pure_and_idempotent :
    (∀ b : TokenUpdateBuilder, (b.buildStep).2 = b
        ∧ ((b.buildStep).2.buildStep).1 = (b.buildStep).1
        ∧ ∀ u, ((b.buildStep).2.addUpdateField u) = b.addUpdateField u)
      ∧ (∀ b : TokenDistributionBuilder, (b.buildStep).2 = b
        ∧ ((b.buildStep).2.buildStep).1 = (b.buildStep).1
        ∧ ∀ t, ((b.buildStep).2.addTokenId t) = b.addTokenId t)
      ∧ (∀ b : CreateInstructionBuilder, (b.buildStep).2 = b
        ∧ ((b.buildStep).2.buildStep).1 = (b.buildStep).1
        ∧ ∀ d, ((b.buildStep).2.addTokenDistribution d)
            = b.addTokenDistribution d)
      ∧ (∀ b : UpdateInstructionBuilder, (b.buildStep).2 = b
        ∧ ((b.buildStep).2.buildStep).1 = (b.buildStep).1
        ∧ ∀ u, ((b.buildStep).2.addUpdate u) = b.addUpdate u)
      ∧ (∀ b : TransferInstructionBuilder, (b.buildStep).2 = b
        ∧ ((b.buildStep).2.buildStep).1 = (b.buildStep).1
        ∧ ∀ ts, ((b.buildStep).2.addTokenIds ts) = b.addTokenIds ts)
      ∧ (∀ b : BurnInstructionBuilder, (b.buildStep).2 = b
        ∧ ((b.buildStep).2.buildStep).1 = (b.buildStep).1
        ∧ ∀ t, ((b.buildStep).2.addTokenId t) = b.addTokenId t)
      ∧ (∀ b : OutputBuilder, (b.buildStep).2 = b
        ∧ ((b.buildStep).2.buildStep).1 = (b.buildStep).1
        ∧ ∀ i, ((b.buildStep).2.addInstruction i) = b.addInstruction i) :=
  ⟨fun _ => ⟨rfl, rfl, fun _ => rfl⟩, fun _ => ⟨rfl, rfl, fun _ => rfl⟩,
   fun _ => ⟨rfl, rfl, fun _ => rfl⟩, fun _ => ⟨rfl, rfl, fun _ => rfl⟩,
   fun _ => ⟨rfl, rfl, fun _ => rfl⟩, fun _ => ⟨rfl, rfl, fun _ => rfl⟩,
   fun _ => ⟨rfl, rfl, fun _ => rfl⟩⟩

/- ================= C4 helper lemmas (field defaults) ==================== -/

/-- With no call touching `programNamespace`, the built value holds its default. -/
lemma createOps_default_programNamespace (ops : List CreateOp)
    (h : ∀ op ∈ ops, op.touchesProgramNamespace = false) :
    (((runCreateOps ops).build).createPayload).map (fun c => c.programNamespace)
      = some none := by
  have hf : (runCreateOps ops).programNamespace = none :=
    foldl_proj_eq (fun b op => CreateOp.apply op b)
      (fun b => b.programNamespace) CreateOp.touchesProgramNamespace
      (by intro s op hop; cases op <;> first | rfl | simp [CreateOp.touchesProgramNamespace] at hop)
      ops CreateInstructionBuilder.new h
  simp [CreateInstructionBuilder.build, Instruction.createPayload, hf]

/-- With no call touching `programId`, the built value holds its default. -/
lemma createOps_default_programId (ops : List CreateOp)
    (h : ∀ op ∈ ops, op.touchesProgramId = false) :
    (((runCreateOps ops).build).createPayload).map (fun c => c.programId)
      = some none := by
  have hf : (runCreateOps ops).programId = none :=
    foldl_proj_eq (fun b op => CreateOp.apply op b)
      (fun b => b.programId) CreateOp.touchesProgramId
      (by intro s op hop; cases op <;> first | rfl | simp [CreateOp.touchesProgramId] at hop)
      ops CreateInstructionBuilder.new h
  simp [CreateInstructionBuilder.build, Instruction.createPayload, hf]

/-- With no call touching `programOwner`, the built value holds its default. -/
lemma createOps_default_programOwner (ops : List CreateOp)
    (h : ∀ op ∈ ops, op.touchesProgramOwner = false) :
    (((runCreateOps ops).build).createPayload).map (fun c => c.programOwner)
      = some none := by
  have hf : (runCreateOps ops).programOwner = none :=
    foldl_proj_eq (fun b op => CreateOp.apply op b)
      (fun b => b.programOwner) CreateOp.touchesProgramOwner
      (by intro s op hop; cases op <;> first | rfl | simp [CreateOp.touchesProgramOwner] at hop)
      ops CreateInstructionBuilder.new h
  simp [CreateInstructionBuilder.build, Instruction.createPayload, hf]

/-- With no call touching `totalSupply`, the built value holds its default. -/
lemma createOps_default_totalSupply (ops : List CreateOp)
    (h : ∀ op ∈ ops, op.touchesTotalSupply = false) :
    (((runCreateOps ops).build).createPayload).map (fun c => c.totalSupply)
      = some none := by
  have hf : (runCreateOps ops).totalSupply = none :=
    foldl_proj_eq (fun b op => CreateOp.apply op b)
      (fun b => b.totalSupply) CreateOp.touchesTotalSupply
      (by intro s op hop; cases op <;> first | rfl | simp [CreateOp.touchesTotalSupply] at hop)
      ops CreateInstructionBuilder.new h
  simp [CreateInstructionBuilder.build, Instruction.createPayload, hf]

/-- With no call touching `initializedSupply`, the built value holds its default. -/
lemma createOps_default_initializedSupply (ops : List CreateOp)
    (h : ∀ op ∈ ops, op.touchesInitializedSupply = false) :
    (((runCreateOps ops).build).createPayload).map (fun c => c.initializedSupply)
      = some none := by
  have hf : (runCreateOps ops).initializedSupply = none :=
    foldl_proj_eq (fun b op => CreateOp.apply op b)
      (fun b => b.initializedSupply) CreateOp.touchesInitializedSupply
      (by intro s op hop; cases op <;> first | rfl | simp [CreateOp.touchesInitializedSupply] at hop)
      ops CreateInstructionBuilder.new h
  simp [CreateInstructionBuilder.build, Instruction.createPayload, hf]

/-- With no call touching `distribution`, the built value holds its default. -/
lemma createOps_default_distribution (ops : List CreateOp)
    (h : ∀ op ∈ ops, op.touchesDistribution = false) :
    (((runCreateOps ops).build).createPayload).map (fun c => c.distribution)
      = some [] := by
  have hf : (runCreateOps ops).distribution = [] :=
    foldl_proj_eq (fun b op => CreateOp.apply op b)
      (fun b => b.distribution) CreateOp.touchesDistribution
      (by intro s op hop; cases op <;> first | rfl | simp [CreateOp.touchesDistribution] at hop)
      ops CreateInstructionBuilder.new h
  simp [CreateInstructionBuilder.build, Instruction.createPayload, hf]

/-- With no call touching `token`, the built value holds its default. -/
lemma transferOps_default_token (ops : List TransferOp)
    (h : ∀ op ∈ ops, op.touchesToken = false) :
    (((runTransferOps ops).build).transferPayload).map (fun c => c.token)
      = some none := by
  have hf : (runTransferOps ops).token = none :=
    foldl_proj_eq (fun b op => TransferOp.apply op b)
      (fun b => b.token) TransferOp.touchesToken
      (by intro s op hop; cases op <;> first | rfl | simp [TransferOp.touchesToken] at hop)
      ops TransferInstructionBuilder.new h
  simp [TransferInstructionBuilder.build, Instruction.transferPayload, hf]

/-- With no call touching `transferFrom`, the built value holds its default. -/
lemma transferOps_default_transferFrom (ops : List TransferOp)
    (h : ∀ op ∈ ops, op.touchesTransferFrom = false) :
    (((runTransferOps ops).build).transferPayload).map (fun c => c.transferFrom)
      = some none := by
  have hf : (runTransferOps ops).transferFrom = none :=
    foldl_proj_eq (fun b op => TransferOp.apply op b)
      (fun b => b.transferFrom) TransferOp.touchesTransferFrom
      (by intro s op hop; cases op <;> first | rfl | simp [TransferOp.touchesTransferFrom] at hop)
      ops TransferInstructionBuilder.new h
  simp [TransferInstructionBuilder.build, Instruction.transferPayload, hf]

/-- With no call touching `transferTo`, the built value holds its default. -/
lemma transferOps_default_transferTo (ops : List TransferOp)
    (h : ∀ op ∈ ops, op.touchesTransferTo = false) :
    (((runTransferOps ops).build).transferPayload).map (fun c => c.transferTo)
      = some none := by
  have hf : (runTransferOps ops).transferTo = none :=
    foldl_proj_eq (fun b op => TransferOp.apply op b)
      (fun b => b.transferTo) TransferOp.touchesTransferTo
      (by intro s op hop; cases op <;> first | rfl | simp [TransferOp.touchesTransferTo] at hop)
      ops TransferInstructionBuilder.new h
  simp [TransferInstructionBuilder.build, Instruction.transferPayload, hf]

/-- With no call touching `amount`, the built value holds its default. -/
lemma transferOps_default_amount (ops : List TransferOp)
    (h : ∀ op ∈ ops, op.touchesAmount = false) :
    (((runTransferOps ops).build).transferPayload).map (fun c => c.amount)
      = some none := by
  have hf : (runTransferOps ops).amount = none :=
    foldl_proj_eq (fun b op => TransferOp.apply op b)
      (fun b => b.amount) TransferOp.touchesAmount
      (by intro s op hop; cases op <;> first | rfl | simp [TransferOp.touchesAmount] at hop)
      ops TransferInstructionBuilder.new h
  simp [TransferInstructionBuilder.build, Instruction.transferPayload, hf]

/-- With no call touching `ids`, the built value holds its default. -/
lemma transferOps_default_ids (ops : List TransferOp)
    (h : ∀ op ∈ ops, op.touchesIds = false) :
    (((runTransferOps ops).build).transferPayload).map (fun c => c.ids)
      = some [] := by
  have hf : (runTransferOps ops).ids = [] :=
    foldl_proj_eq (fun b op => TransferOp.apply op b)
      (fun b => b.ids) TransferOp.touchesIds
      (by intro s op hop; cases op <;> first | rfl | simp [TransferOp.touchesIds] at hop)
      ops TransferInstructionBuilder.new h
  simp [TransferInstructionBuilder.build, Instruction.transferPayload, hf]

/-- With no call touching `caller`, the built value holds its default. -/
lemma burnOps_default_caller (ops : List BurnOp)
    (h : ∀ op ∈ ops, op.touchesCaller = false) :
    (((runBurnOps ops).build).burnPayload).map (fun c => c.caller)
      = some none := by
  have hf : (runBurnOps ops).caller = none :=
    foldl_proj_eq (fun b op => BurnOp.apply op b)
      (fun b => b.caller) BurnOp.touchesCaller
      (by intro s op hop; cases op <;> first | rfl | simp [BurnOp.touchesCaller] at hop)
      ops BurnInstructionBuilder.new h
  simp [BurnInstructionBuilder.build, Instruction.burnPayload, hf]

/-- With no call touching `programId`, the built value holds its default. -/
lemma burnOps_default_programId (ops : List BurnOp)
    (h : ∀ op ∈ ops, op.touchesProgramId = false) :
    (((runBurnOps ops).build).burnPayload).map (fun c => c.programId)
      = some none := by
  have hf : (runBurnOps ops).programId = none :=
    foldl_proj_eq (fun b op => BurnOp.apply op b)
      (fun b => b.programId) BurnOp.touchesProgramId
      (by intro s op hop; cases op <;> first | rfl | simp [BurnOp.touchesProgramId] at hop)
      ops BurnInstructionBuilder.new h
  simp [BurnInstructionBuilder.build, Instruction.burnPayload, hf]

/-- With no call touching `token`, the built value holds its default. -/
lemma burnOps_default_token (ops : List BurnOp)
    (h : ∀ op ∈ ops, op.touchesToken = false) :
    (((runBurnOps ops).build).burnPayload).map (fun c => c.token)
      = some none := by
  have hf : (runBurnOps ops).token = none :=
    foldl_proj_eq (fun b op => BurnOp.apply op b)
      (fun b => b.token) BurnOp.touchesToken
      (by intro s op hop; cases op <;> first | rfl | simp [BurnOp.touchesToken] at hop)
      ops BurnInstructionBuilder.new h
  simp [BurnInstructionBuilder.build, Instruction.burnPayload, hf]

/-- With no call touching `burnFrom`, the built value holds its default. -/
lemma burnOps_default_burnFrom (ops : List BurnOp)
    (h : ∀ op ∈ ops, op.touchesBurnFrom = false) :
    (((runBurnOps ops).build).burnPayload).map (fun c => c.burnFrom)
      = some none := by
  have hf : (runBurnOps ops).burnFrom = none :=
    foldl_proj_eq (fun b op => BurnOp.apply op b)
      (fun b => b.burnFrom) BurnOp.touchesBurnFrom
      (by intro s op hop; cases op <;> first | rfl | simp [BurnOp.touchesBurnFrom] at hop)
      ops BurnInstructionBuilder.new h
  simp [BurnInstructionBuilder.build, Instruction.burnPayload, hf]

/-- With no call touching `amount`, the built value holds its default. -/
lemma burnOps_default_amount (ops : List BurnOp)
    (h : ∀ op ∈ ops, op.touchesAmount = false) :
    (((runBurnOps ops).build).burnPayload).map (fun c => c.amount)
      = some none := by
  have hf : (runBurnOps ops).amount = none :=
    foldl_proj_eq (fun b op => BurnOp.apply op b)
      (fun b => b.amount) BurnOp.touchesAmount
      (by intro s op hop; cases op <;> first | rfl | simp [BurnOp.touchesAmount] at hop)
      ops BurnInstructionBuilder.new h
  simp [BurnInstructionBuilder.build, Instruction.burnPayload, hf]

/-- With no call touching `tokenIds`, the built value holds its default. -/
lemma burnOps_default_tokenIds (ops : List BurnOp)
    (h : ∀ op ∈ ops, op.touchesTokenIds = false) :
    (((runBurnOps ops).build).burnPayload).map (fun c => c.tokenIds)
      = some [] := by
  have hf : (runBurnOps ops).tokenIds = [] :=
    foldl_proj_eq (fun b op => BurnOp.apply op b)
      (fun b => b.tokenIds) BurnOp.touchesTokenIds
      (by intro s op hop; cases op <;> first | rfl | simp [BurnOp.touchesTokenIds] at hop)
      ops BurnInstructionBuilder.new h
  simp [BurnInstructionBuilder.build, Instruction.burnPayload, hf]

/-- With no call touching `programId`, the built value holds its default. -/
lemma distributionOps_default_programId (ops : List DistributionOp)
    (h : ∀ op ∈ ops, op.touchesProgramId = false) :
    ((runDistributionOps ops).build).programId = none := by
  have hf : (runDistributionOps ops).programId = none :=
    foldl_proj_eq (fun b op => DistributionOp.apply op b)
      (fun b => b.programId) DistributionOp.touchesProgramId
      (by intro s op hop; cases op <;> first | rfl | simp [DistributionOp.touchesProgramId] at hop)
      ops TokenDistributionBuilder.new h
  simp [TokenDistributionBuilder.build_eq, TokenDistributionBuilder.build, hf]

/-- With no call touching `«to»`, the built value holds its default. -/
lemma distributionOps_default_to (ops : List DistributionOp)
    (h : ∀ op ∈ ops, op.touchesReceiver = false) :
    ((runDistributionOps ops).build).«to» = none := by
  have hf : (runDistributionOps ops).«to» = none :=
    foldl_proj_eq (fun b op => DistributionOp.apply op b)
      (fun b => b.«to») DistributionOp.touchesReceiver
      (by intro s op hop; cases op <;> first | rfl | simp [DistributionOp.touchesReceiver] at hop)
      ops TokenDistributionBuilder.new h
  simp [TokenDistributionBuilder.build_eq, TokenDistributionBuilder.build, hf]

/-- With no call touching `amount`, the built value holds its default. -/
lemma distributionOps_default_amount (ops : List DistributionOp)
    (h : ∀ op ∈ ops, op.touchesAmount = false) :
    ((runDistributionOps ops).build).amount = none := by
  have hf : (runDistributionOps ops).amount = none :=
    foldl_proj_eq (fun b op => DistributionOp.apply op b)
      (fun b => b.amount) DistributionOp.touchesAmount
      (by intro s op hop; cases op <;> first | rfl | simp [DistributionOp.touchesAmount] at hop)
      ops TokenDistributionBuilder.new h
  simp [TokenDistributionBuilder.build_eq, TokenDistributionBuilder.build, hf]

/-- With no call touching `tokenIds`, the built value holds its default. -/
lemma distributionOps_default_tokenIds (ops : List DistributionOp)
    (h : ∀ op ∈ ops, op.touchesTokenIds = false) :
    ((runDistributionOps ops).build).tokenIds = [] := by
  have hf : (runDistributionOps ops).tokenIds = [] :=
    foldl_proj_eq (fun b op => DistributionOp.apply op b)
      (fun b => b.tokenIds) DistributionOp.touchesTokenIds
      (by intro s op hop; cases op <;> first | rfl | simp [DistributionOp.touchesTokenIds] at hop)
      ops TokenDistributionBuilder.new h
  simp [TokenDistributionBuilder.build_eq, TokenDistributionBuilder.build, hf]

/-- With no call touching `updateFields`, the built value holds its default. -/
lemma distributionOps_default_updateFields (ops : List DistributionOp)
    (h : ∀ op ∈ ops, op.touchesUpdateFields = false) :
    ((runDistributionOps ops).build).updateFields = [] := by
  have hf : (runDistributionOps ops).updateFields = [] :=
    foldl_proj_eq (fun b op => DistributionOp.apply op b)
      (fun b => b.updateFields) DistributionOp.touchesUpdateFields
      (by intro s op hop; cases op <;> first | rfl | simp [DistributionOp.touchesUpdateFields] at hop)
      ops TokenDistributionBuilder.new h
  simp [TokenDistributionBuilder.build_eq, TokenDistributionBuilder.build, hf]

/-- With no call touching `updates`, the built value holds its default. -/
lemma updateOps_default_updates (ops : List UpdateOp)
    (h : ∀ op ∈ ops, op.touchesUpdates = false) :
    (((runUpdateOps ops).build).updatePayload).map (fun c => c.updates)
      = some [] := by
  have hf : (runUpdateOps ops).updates = [] :=
    foldl_proj_eq (fun b op => UpdateOp.apply op b)
      (fun b => b.updates) UpdateOp.touchesUpdates
      (by intro s op hop; cases op <;> first | rfl | simp [UpdateOp.touchesUpdates] at hop)
      ops UpdateInstructionBuilder.new h
  simp [UpdateInstructionBuilder.build, Instruction.updatePayload, hf]

/-- With no call touching `inputs`, the built value holds its default. -/
lemma outputOps_default_inputs (ops : List OutputOp)
    (h : ∀ op ∈ ops, op.touchesInputs = false) :
    ((runOutputOps ops).build).inputs = none := by
  have hf : (runOutputOps ops).inputs = none :=
    foldl_proj_eq (fun b op => OutputOp.apply op b)
      (fun b => b.inputs) OutputOp.touchesInputs
      (by intro s op hop; cases op <;> first | rfl | simp [OutputOp.touchesInputs] at hop)
      ops OutputBuilder.new h
  simp [OutputBuilder.build, hf]

/-- With no call touching `instructions`, the built value holds its default. -/
lemma outputOps_default_instructions (ops : List OutputOp)
    (h : ∀ op ∈ ops, op.touchesInstructions = false) :
    ((runOutputOps ops).build).instructions = [] := by
  have hf : (runOutputOps ops).instructions = [] :=
    foldl_proj_eq (fun b op => OutputOp.apply op b)
      (fun b => b.instructions) OutputOp.touchesInstructions
      (by intro s op hop; cases op <;> first | rfl | simp [OutputOp.touchesInstructions] at hop)
      ops OutputBuilder.new h
  simp [OutputBuilder.build, hf]

/-- C4: Permissive builders.  For every builder and every sequence of
setter calls (a fortiori every subset), `build()` is a total function (the
embedded method bodies contain no throw), and every field whose setter was
never called appears in the built value as its `null` default (scalar
fields, embedded as `none`) or empty list (list fields). -/
theorem builders_are_permissive_with_null_defaults :
    (∀ ops : List CreateOp, (∀ op ∈ ops, op.touchesProgramNamespace = false) →
        (((runCreateOps ops).build).createPayload).map (fun c => c.programNamespace)
          = some none)
      ∧ (∀ ops : List CreateOp, (∀ op ∈ ops, op.touchesProgramId = false) →
        (((runCreateOps ops).build).createPayload).map (fun c => c.programId)
          = some none)
      ∧ (∀ ops : List CreateOp, (∀ op ∈ ops, op.touchesProgramOwner = false) →
        (((runCreateOps ops).build).createPayload).map (fun c => c.programOwner)
          = some none)
      ∧ (∀ ops : List CreateOp, (∀ op ∈ ops, op.touchesTotalSupply = false) →
        (((runCreateOps ops).build).createPayload).map (fun c => c.totalSupply)
          = some none)
      ∧ (∀ ops : List CreateOp, (∀ op ∈ ops, op.touchesInitializedSupply = false) →
        (((runCreateOps ops).build).createPayload).map (fun c => c.initializedSupply)
          = some none)
      ∧ (∀ ops : List CreateOp, (∀ op ∈ ops, op.touchesDistribution = false) →
        (((runCreateOps ops).build).createPayload).map (fun c => c.distribution)
          = some [])
      ∧ (∀ ops : List TransferOp, (∀ op ∈ ops, op.touchesToken = false) →
        (((runTransferOps ops).build).transferPayload).map (fun c => c.token)
          = some none)
      ∧ (∀ ops : List TransferOp, (∀ op ∈ ops, op.touchesTransferFrom = false) →
        (((runTransferOps ops).build).transferPayload).map (fun c => c.transferFrom)
          = some none)
      ∧ (∀ ops : List TransferOp, (∀ op ∈ ops, op.touchesTransferTo = false) →
        (((runTransferOps ops).build).transferPayload).map (fun c => c.transferTo)
          = some none)
      ∧ (∀ ops : List TransferOp, (∀ op ∈ ops, op.touchesAmount = false) →
        (((runTransferOps ops).build).transferPayload).map (fun c => c.amount)
          = some none)
      ∧ (∀ ops : List TransferOp, (∀ op ∈ ops, op.touchesIds = false) →
        (((runTransferOps ops).build).transferPayload).map (fun c => c.ids)
          = some [])
      ∧ (∀ ops : List BurnOp, (∀ op ∈ ops, op.touchesCaller = false) →
        (((runBurnOps ops).build).burnPayload).map (fun c => c.caller)
          = some none)
      ∧ (∀ ops : List BurnOp, (∀ op ∈ ops, op.touchesProgramId = false) →
        (((runBurnOps ops).build).burnPayload).map (fun c => c.programId)
          = some none)
      ∧ (∀ ops : List BurnOp, (∀ op ∈ ops, op.touchesToken = false) →
        (((runBurnOps ops).build).burnPayload).map (fun c => c.token)
          = some none)
      ∧ (∀ ops : List BurnOp, (∀ op ∈ ops, op.touchesBurnFrom = false) →
        (((runBurnOps ops).build).burnPayload).map (fun c => c.burnFrom)
          = some none)
      ∧ (∀ ops : List BurnOp, (∀ op ∈ ops, op.touchesAmount = false) →
        (((runBurnOps ops).build).burnPayload).map (fun c => c.amount)
          = some none)
      ∧ (∀ ops : List BurnOp, (∀ op ∈ ops, op.touchesTokenIds = false) →
        (((runBurnOps ops).build).burnPayload).map (fun c => c.tokenIds)
          = some [])
      ∧ (∀ ops : List DistributionOp, (∀ op ∈ ops, op.touchesProgramId = false) →
        ((runDistributionOps ops).build).programId = none)
      ∧ (∀ ops : List DistributionOp, (∀ op ∈ ops, op.touchesReceiver = false) →
        ((runDistributionOps ops).build).«to» = none)
      ∧ (∀ ops : List DistributionOp, (∀ op ∈ ops, op.touchesAmount = false) →
        ((runDistributionOps ops).build).amount = none)
      ∧ (∀ ops : List DistributionOp, (∀ op ∈ ops, op.touchesTokenIds = false) →
        ((runDistributionOps ops).build).tokenIds = [])
      ∧ (∀ ops : List DistributionOp, (∀ op ∈ ops, op.touchesUpdateFields = false) →
        ((runDistributionOps ops).build).updateFields = [])
      ∧ (∀ ops : List UpdateOp, (∀ op ∈ ops, op.touchesUpdates = false) →
        (((runUpdateOps ops).build).updatePayload).map (fun c => c.updates)
          = some [])
      ∧ (∀ ops : List OutputOp, (∀ op ∈ ops, op.touchesInputs = false) →
        ((runOutputOps ops).build).inputs = none)
      ∧ (∀ ops : List OutputOp, (∀ op ∈ ops, op.touchesInstructions = false) →
        ((runOutputOps ops).build).instructions = []) :=
  ⟨createOps_default_programNamespace,
   createOps_default_programId,
   createOps_default_programOwner,
   createOps_default_totalSupply,
   createOps_default_initializedSupply,
   createOps_default_distribution,
   transferOps_default_token,
   transferOps_default_transferFrom,
   transferOps_default_transferTo,
   transferOps_default_amount,
   transferOps_default_ids,
   burnOps_default_caller,
   burnOps_default_programId,
   burnOps_default_token,
   burnOps_default_burnFrom,
   burnOps_default_amount,
   burnOps_default_tokenIds,
   distributionOps_default_programId,
   distributionOps_default_to,
   distributionOps_default_amount,
   distributionOps_default_tokenIds,
   distributionOps_default_updateFields,
   updateOps_default_updates,
   outputOps_default_inputs,
   outputOps_default_instructions⟩

/-- Witness for C4: a call sequence that only sets `totalSupply` leaves
`programNamespace` at its null default in the built create instruction. -/
theorem builders_are_permissive_witness :
    (((runCreateOps [CreateOp.setTotalSupply "100"]).build).createPayload).map
        (fun c => c.programNamespace) = some none :=
  builders_are_permissive_with_null_defaults.1
    [CreateOp.setTotalSupply "100"] (by decide)

/- ==================== Codec helper lemmas ================================ -/

/-- Folding digits from an arbitrary accumulator scales the accumulator by
the digit count. -/
lemma valBE_foldl_acc (b : Nat) (ds : List Nat) :
    ∀ acc : Nat, ds.foldl (fun a d => a * b + d) acc
      = acc * b ^ ds.length + valBE b ds := by
  induction ds with
  | nil => intro acc; simp [valBE]
  | cons d ds ih =>
    intro acc
    simp only [List.foldl_cons, List.length_cons, valBE] at *
    rw [ih (acc * b + d), ih (0 * b + d)]
    ring

/-- Peeling the leading digit off a big-endian value. -/
lemma valBE_cons (b d : Nat) (ds : List Nat) :
    valBE b (d :: ds) = d * b ^ ds.length + valBE b ds := by
  calc valBE b (d :: ds)
      = List.foldl (fun a x => a * b + x) (0 * b + d) ds := rfl
    _ = (0 * b + d) * b ^ ds.length + valBE b ds := valBE_foldl_acc b ds (0 * b + d)
    _ = d * b ^ ds.length + valBE b ds := by ring

/-- Splitting a big-endian value across an append. -/
lemma valBE_append (b : Nat) (xs ys : List Nat) :
    valBE b (xs ++ ys) = valBE b xs * b ^ ys.length + valBE b ys := by
  calc valBE b (xs ++ ys)
      = List.foldl (fun a x => a * b + x) (valBE b xs) ys := by
        simp only [valBE, List.foldl_append]
    _ = valBE b xs * b ^ ys.length + valBE b ys := valBE_foldl_acc b ys (valBE b xs)

/-- The big-endian value of the reverse is the little-endian value. -/
lemma valBE_reverse_eq_ofRevDigits (b : Nat) (ds : List Nat) :
    valBE b ds.reverse = ofRevDigits b ds := by
  induction ds with
  | nil => rfl
  | cons d ds ih =>
    rw [List.reverse_cons, valBE_append, ih]
    simp only [ofRevDigits, List.length_cons, List.length_nil, pow_one]
    have h1 : valBE b [d] = d := by simp [valBE]
    rw [h1]
    ring

/-- `toDigitsRevAux` is sound: its little-endian value is the input, as
long as the fuel covers the input. -/
lemma ofRevDigits_toDigitsRevAux (b : Nat) (hb : 2 ≤ b) :
    ∀ fuel n, n ≤ fuel → ofRevDigits b (toDigitsRevAux b fuel n) = n := by
  intro fuel
  induction fuel with
  | zero =>
    intro n hn
    have h0 : n = 0 := by omega
    subst h0
    rfl
  | succ fuel ih =>
    intro n hn
    by_cases h0 : n = 0
    · subst h0; simp [toDigitsRevAux, ofRevDigits]
    · have hdiv : n / b ≤ fuel := by
        have h1 : n / b < n := Nat.div_lt_self (Nat.pos_of_ne_zero h0) (by omega)
        omega
      simp only [toDigitsRevAux, if_neg h0, ofRevDigits]
      rw [ih _ hdiv]
      exact Nat.mod_add_div n b

/-- Every digit `toDigitsRevAux` emits is below the base. -/
lemma toDigitsRevAux_digit_lt (b : Nat) (hb : 0 < b) :
    ∀ fuel n d, d ∈ toDigitsRevAux b fuel n → d < b := by
  intro fuel
  induction fuel with
  | zero => intro n d hd; simp [toDigitsRevAux] at hd
  | succ fuel ih =>
    intro n d hd
    by_cases h0 : n = 0
    · subst h0; simp [toDigitsRevAux] at hd
    · simp only [toDigitsRevAux, if_neg h0, List.mem_cons] at hd
      rcases hd with rfl | hd
      · exact Nat.mod_lt _ hb
      · exact ih _ _ hd

/-- The big-endian value of `natDigits b n` is `n`. -/
lemma valBE_natDigits (b : Nat) (hb : 2 ≤ b) (n : Nat) :
    valBE b (natDigits b n) = n := by
  unfold natDigits
  rw [valBE_reverse_eq_ofRevDigits]
  exact ofRevDigits_toDigitsRevAux b hb n n le_rfl

/-- Every digit of `natDigits b n` is below the base. -/
lemma natDigits_digit_lt (b : Nat) (hb : 0 < b) (n : Nat) :
    ∀ d ∈ natDigits b n, d < b := by
  intro d hd
  unfold natDigits at hd
  rw [List.mem_reverse] at hd
  exact toDigitsRevAux_digit_lt b hb n n d hd

/-- A digit string of length `k` denotes a value below `b ^ k`. -/
lemma valBE_lt_pow (b : Nat) (ds : List Nat) (h : ∀ d ∈ ds, d < b) :
    valBE b ds < b ^ ds.length := by
  induction ds with
  | nil => simp [valBE]
  | cons d ds ih =>
    rw [valBE_cons, List.length_cons]
    have hd : d < b := h d (List.mem_cons_self d ds)
    have hds := ih (fun x hx => h x (List.mem_cons_of_mem _ hx))
    calc d * b ^ ds.length + valBE b ds
        < d * b ^ ds.length + b ^ ds.length := by omega
      _ = (d + 1) * b ^ ds.length := by ring
      _ ≤ b * b ^ ds.length := Nat.mul_le_mul_right _ (by omega)
      _ = b ^ (ds.length + 1) := by ring

/-- A value below `b ^ k` has at most `k` digits. -/
lemma toDigitsRevAux_length_le (b : Nat) (hb : 2 ≤ b) :
    ∀ fuel n k, n < b ^ k → (toDigitsRevAux b fuel n).length ≤ k := by
  intro fuel
  induction fuel with
  | zero => intro n k _; simp [toDigitsRevAux]
  | succ fuel ih =>
    intro n k hk
    by_cases h0 : n = 0
    · subst h0; simp [toDigitsRevAux]
    · cases k with
      | zero => simp at hk; omega
      | succ k =>
        simp only [toDigitsRevAux, if_neg h0, List.length_cons]
        have hlt : n / b < b ^ k := by
          rw [Nat.div_lt_iff_lt_mul (by omega : 0 < b)]
          calc n < b ^ (k + 1) := hk
            _ = b ^ k * b := by ring
        have := ih (n / b) k hlt
        omega

/-- `natDigits` of a value below `b ^ k` has at most `k` digits. -/
lemma natDigits_length_le (b : Nat) (hb : 2 ≤ b) (n k : Nat) (h : n < b ^ k) :
    (natDigits b n).length ≤ k := by
  unfold natDigits
  rw [List.length_reverse]
  exact toDigitsRevAux_length_le b hb n n k h

/-- Two digit strings of the same length denoting the same value are
equal. -/
lemma valBE_inj (b : Nat) : ∀ ds es : List Nat, ds.length = es.length →
    (∀ d ∈ ds, d < b) → (∀ d ∈ es, d < b) → valBE b ds = valBE b es →
    ds = es := by
  intro ds
  induction ds with
  | nil =>
    intro es hlen _ _ _
    cases es with
    | nil => rfl
    | cons e es => simp at hlen
  | cons d ds ih =>
    intro es hlen hds hes hval
    cases es with
    | nil => simp at hlen
    | cons e es =>
      simp only [List.length_cons] at hlen
      have hlen' : ds.length = es.length := by omega
      rw [valBE_cons, valBE_cons, hlen'] at hval
      have h1 : valBE b ds < b ^ es.length := by
        have := valBE_lt_pow b ds (fun x hx => hds x (List.mem_cons_of_mem _ hx))
        rwa [hlen'] at this
      have h2 : valBE b es < b ^ es.length :=
        valBE_lt_pow b es (fun x hx => hes x (List.mem_cons_of_mem _ hx))
      have hpow : 0 < b ^ es.length := Nat.lt_of_le_of_lt (Nat.zero_le _) h2
      have hval' : b ^ es.length * d + valBE b ds
          = b ^ es.length * e + valBE b es := by
        rw [mul_comm (b ^ es.length) d, mul_comm (b ^ es.length) e]
        exact hval
      have hde : d = e := by
        have e1 : (b ^ es.length * d + valBE b ds) / b ^ es.length = d := by
          rw [Nat.mul_add_div hpow, Nat.div_eq_of_lt h1, Nat.add_zero]
        have e2 : (b ^ es.length * e + valBE b es) / b ^ es.length = e := by
          rw [Nat.mul_add_div hpow, Nat.div_eq_of_lt h2, Nat.add_zero]
        rw [← e1, ← e2, hval']
      subst hde
      have hval2 : valBE b ds = valBE b es := by
        have := hval'
        omega
      rw [ih es hlen' (fun x hx => hds x (List.mem_cons_of_mem _ hx))
        (fun x hx => hes x (List.mem_cons_of_mem _ hx)) hval2]

/-- Parsing a rendered digit string folds back to its value. -/
lemma parseDigitsAux_map (base : Nat) (dv : Char → Option Nat)
    (ch : Nat → Char) (hch : ∀ d, d < base → dv (ch d) = some d) :
    ∀ ds : List Nat, (∀ d ∈ ds, d < base) → ∀ acc,
      parseDigitsAux base dv (ds.map ch) acc
        = some (ds.foldl (fun a d => a * base + d) acc) := by
  intro ds
  induction ds with
  | nil => intro _ acc; rfl
  | cons d ds ih =>
    intro h acc
    simp only [List.map_cons, parseDigitsAux]
    rw [hch d (h d (List.mem_cons_self d ds))]
    exact ih (fun x hx => h x (List.mem_cons_of_mem _ hx)) (acc * base + d)

/-- Parsing a rendered digit string from a zero accumulator yields its
big-endian value. -/
lemma parseDigitsAux_valBE (base : Nat) (dv : Char → Option Nat)
    (ch : Nat → Char) (hch : ∀ d, d < base → dv (ch d) = some d)
    (ds : List Nat) (hds : ∀ d ∈ ds, d < base) :
    parseDigitsAux base dv (ds.map ch) 0 = some (valBE base ds) :=
  parseDigitsAux_map base dv ch hch ds hds 0

/-- The decimal digit characters parse back to their values. -/
lemma decDigitVal_digitChar {d : Nat} (h : d < 10) :
    decDigitVal (digitChar d) = some d := by
  interval_cases d <;> decide

/-- The lower-case hex digit characters parse back to their values. -/
lemma hexDigitVal_hexChar {d : Nat} (h : d < 16) :
    hexDigitVal (hexChar d) = some d := by
  interval_cases d <;> decide

/-- No decimal digit character is the dot. -/
lemma digitChar_ne_dot {d : Nat} (h : d < 10) : digitChar d ≠ '.' := by
  interval_cases d <;> decide

/-- `splitAtDot` on a dot-free string returns the whole string and no
fractional part. -/
lemma splitAtDot_no_dot : ∀ cs : List Char, (∀ c ∈ cs, c ≠ '.') →
    splitAtDot cs = (cs, none) := by
  intro cs
  induction cs with
  | nil => intro _; rfl
  | cons c cs ih =>
    intro h
    have hc : c ≠ '.' := h c (List.mem_cons_self c cs)
    simp only [splitAtDot, if_neg hc,
      ih (fun x hx => h x (List.mem_cons_of_mem _ hx))]

/-- `splitAtDot` splits at the first dot. -/
lemma splitAtDot_append_dot : ∀ l1 l2 : List Char, (∀ c ∈ l1, c ≠ '.') →
    splitAtDot (l1 ++ '.' :: l2) = (l1, some l2) := by
  intro l1 l2
  induction l1 with
  | nil => intro _; simp [splitAtDot]
  | cons c l1 ih =>
    intro h
    have hc : c ≠ '.' := h c (List.mem_cons_self c l1)
    simp only [List.cons_append, splitAtDot, if_neg hc, List.append_eq,
      ih (fun x hx => h x (List.mem_cons_of_mem _ hx))]

/-- Leading zero digits carry no value. -/
lemma valBE_replicate_zero (b k : Nat) :
    valBE b (List.replicate k 0) = 0 := by
  induction k with
  | zero => rfl
  | succ k ih => rw [List.replicate_succ, valBE_cons, ih]; simp

/-- Dropping a leading block of zero digits preserves the value. -/
lemma valBE_replicate_zero_append (b k : Nat) (xs : List Nat) :
    valBE b (List.replicate k 0 ++ xs) = valBE b xs := by
  rw [valBE_append, valBE_replicate_zero]
  simp

/-- A trailing block of zero digits scales the value by `b ^ k`. -/
lemma valBE_append_replicate_zero (b k : Nat) (xs : List Nat) :
    valBE b (xs ++ List.replicate k 0) = valBE b xs * b ^ k := by
  rw [valBE_append, valBE_replicate_zero, List.length_replicate]
  simp

/-- `dropWhile` consumes a leading block of zero characters. -/
lemma dropWhile_replicate_zero_append (k : Nat) (xs : List Char) :
    (List.replicate k '0' ++ xs).dropWhile (fun c => c = '0')
      = xs.dropWhile (fun c => c = '0') := by
  induction k with
  | zero => rfl
  | succ k ih =>
    rw [List.replicate_succ, List.cons_append, List.dropWhile_cons]
    simp [ih]

/-- Trimming trailing zeros ignores an appended block of zeros. -/
lemma trim_append_replicate_zero (xs : List Char) (k : Nat) :
    ((xs ++ List.replicate k '0').reverse.dropWhile (fun c => c = '0')).reverse
      = (xs.reverse.dropWhile (fun c => c = '0')).reverse := by
  rw [List.reverse_append, List.reverse_replicate,
    dropWhile_replicate_zero_append]

/-- Rebuilding a string from its characters is the identity. -/
lemma stringMk_data (s : String) : String.mk s.data = s := rfl

/-- The integer-part rendering of any natural number is a dot-free digit
string with that value. -/
lemma decString_digits (a : Nat) :
    ∃ dsa : List Nat, (decString a).data = dsa.map digitChar
      ∧ (∀ d ∈ dsa, d < 10) ∧ valBE 10 dsa = a := by
  by_cases h0 : a = 0
  · subst h0
    exact ⟨[0], by decide, by decide, by decide⟩
  · refine ⟨natDigits 10 a, ?_, natDigits_digit_lt 10 (by omega) a,
      valBE_natDigits 10 (by omega) a⟩
    simp [decString, h0]

/-- Reading back a rendered 64-digit hex amount recovers the integer and
renders it as a decimal amount. -/
lemma formatHexToAmount_natToHex64 (n : Nat) :
    formatHexToAmount (natToHex64 n) = some (renderAmount n) := by
  have hzero : List.replicate (64 - ((natDigits 16 n).map hexChar).length) '0'
      = (List.replicate (64 - ((natDigits 16 n).map hexChar).length) 0).map hexChar := by
    rw [List.map_replicate]; rfl
  have hbound : ∀ d ∈ List.replicate (64 - ((natDigits 16 n).map hexChar).length) 0
      ++ natDigits 16 n, d < 16 := by
    intro d hd
    rcases List.mem_append.mp hd with h | h
    · have := List.eq_of_mem_replicate h; omega
    · exact natDigits_digit_lt 16 (by omega) n d h
  have step1 : formatHexToAmount (natToHex64 n)
      = (parseDigitsAux 16 hexDigitVal
          (List.replicate (64 - ((natDigits 16 n).map hexChar).length) '0'
            ++ (natDigits 16 n).map hexChar) 0).map renderAmount := rfl
  rw [step1, hzero, ← List.map_append,
    parseDigitsAux_valBE 16 hexDigitVal hexChar
      (fun d hd => hexDigitVal_hexChar hd) _ hbound,
    valBE_replicate_zero_append, valBE_natDigits 16 (by omega)]
  rfl

/-- Rendering `a * 10^18 + m` where `m` is the scaled fractional digit
string `fd`: the integer part renders as `a` and the fractional part as
`fd` with its trailing zeros trimmed. -/
lemma renderAmount_eq (a : Nat) (fd : List Nat) (hfd : ∀ d ∈ fd, d < 10)
    (hlen : fd.length ≤ 18) :
    renderAmount (a * 10 ^ 18 + valBE 10 fd * 10 ^ (18 - fd.length))
      = (if (((fd.map digitChar).reverse.dropWhile
              (fun c => c = '0')).reverse).isEmpty
         then decString a
         else decString a ++ "." ++ String.mk
            (((fd.map digitChar).reverse.dropWhile
              (fun c => c = '0')).reverse)) := by
  set m := valBE 10 fd * 10 ^ (18 - fd.length) with hm
  have hmlt : m < 10 ^ 18 := by
    have h1 : valBE 10 fd < 10 ^ fd.length := valBE_lt_pow 10 fd hfd
    calc m < 10 ^ fd.length * 10 ^ (18 - fd.length) := by
          rw [hm]
          exact (Nat.mul_lt_mul_right (Nat.pos_pow_of_pos _ (by omega))).mpr h1
      _ = 10 ^ 18 := by rw [← pow_add]; congr 1; omega
  have hdiv : (a * 10 ^ 18 + m) / 10 ^ 18 = a := by
    rw [mul_comm a, Nat.mul_add_div (Nat.pos_pow_of_pos _ (by omega)),
      Nat.div_eq_of_lt hmlt, Nat.add_zero]
  have hmod : (a * 10 ^ 18 + m) % 10 ^ 18 = m := by
    rw [mul_comm a, Nat.mul_add_mod, Nat.mod_eq_of_lt hmlt]
  have hL : (natDigits 10 m).length ≤ 18 :=
    natDigits_length_le 10 (by omega) m 18 hmlt
  have hpad : List.replicate (18 - (natDigits 10 m).length) 0 ++ natDigits 10 m
      = fd ++ List.replicate (18 - fd.length) 0 := by
    apply valBE_inj 10
    · simp only [List.length_append, List.length_replicate]
      omega
    · intro d hd
      rcases List.mem_append.mp hd with h | h
      · have := List.eq_of_mem_replicate h; omega
      · exact natDigits_digit_lt 10 (by omega) m d h
    · intro d hd
      rcases List.mem_append.mp hd with h | h
      · exact hfd d h
      · have := List.eq_of_mem_replicate h; omega
    · rw [valBE_replicate_zero_append, valBE_natDigits 10 (by omega),
        valBE_append_replicate_zero]
  have hpadc : List.replicate (18 - ((natDigits 10 m).map digitChar).length) '0'
        ++ (natDigits 10 m).map digitChar
      = fd.map digitChar ++ List.replicate (18 - fd.length) '0' := by
    have hmapped : (List.replicate (18 - (natDigits 10 m).length) 0
          ++ natDigits 10 m).map digitChar
        = (fd ++ List.replicate (18 - fd.length) 0).map digitChar := by
      rw [hpad]
    simpa [List.map_append, List.map_replicate, List.length_map] using hmapped
  simp only [renderAmount, hdiv, hmod, hpadc, trim_append_replicate_zero]

/-- Parsing a canonical decimal string with a nonempty fractional digit
string yields the hex rendering of the exact scaled integer. -/
lemma formatAmountToHex_frac (a : Nat) (fd : List Nat)
    (hfd : ∀ d ∈ fd, d < 10) (hlen : fd.length ≤ 18) :
    formatAmountToHex (decString a ++ "." ++ String.mk (fd.map digitChar))
      = some (natToHex64
          (a * 10 ^ 18 + valBE 10 fd * 10 ^ (18 - fd.length))) := by
  obtain ⟨dsa, hdata, hdsa, hval⟩ := decString_digits a
  have hnodot : ∀ c ∈ dsa.map digitChar, c ≠ '.' := by
    intro c hc
    obtain ⟨d, hdm, rfl⟩ := List.mem_map.mp hc
    exact digitChar_ne_dot (hdsa d hdm)
  have hd : (decString a ++ "." ++ String.mk (fd.map digitChar)).data
      = dsa.map digitChar ++ '.' :: fd.map digitChar := by
    have e1 : (decString a ++ "." ++ String.mk (fd.map digitChar)).data
        = ((decString a).data ++ ['.']) ++ fd.map digitChar := rfl
    rw [e1, hdata, List.append_assoc]
    rfl
  have hsplit : splitAtDot
        (decString a ++ "." ++ String.mk (fd.map digitChar)).data
      = (dsa.map digitChar, some (fd.map digitChar)) := by
    rw [hd]
    exact splitAtDot_append_dot _ _ hnodot
  simp only [formatAmountToHex, hsplit, Option.getD_some]
  have hmin : min (18 - (fd.map digitChar).length) 18 = 18 - fd.length := by
    simp [List.length_map]
  have htake : (fd.map digitChar ++ List.replicate 18 '0').take 18
      = fd.map digitChar ++ List.replicate (18 - fd.length) '0' := by
    rw [List.take_append_eq_append_take,
      List.take_of_length_le (by simpa using hlen), List.take_replicate, hmin]
  rw [htake]
  have hcat : dsa.map digitChar
        ++ (fd.map digitChar ++ List.replicate (18 - fd.length) '0')
      = (dsa ++ (fd ++ List.replicate (18 - fd.length) 0)).map digitChar := by
    simp [List.map_append, List.map_replicate,
      show digitChar 0 = '0' from rfl]
  have hbounds : ∀ d ∈ dsa ++ (fd ++ List.replicate (18 - fd.length) 0),
      d < 10 := by
    intro d hmem
    rcases List.mem_append.mp hmem with h | h
    · exact hdsa d h
    · rcases List.mem_append.mp h with h' | h'
      · exact hfd d h'
      · have := List.eq_of_mem_replicate h'; omega
  rw [hcat, parseDigitsAux_valBE 10 decDigitVal digitChar
    (fun d hdig => decDigitVal_digitChar hdig) _ hbounds]
  have hlen2 : (fd ++ List.replicate (18 - fd.length) 0).length = 18 := by
    simp [List.length_append]
    omega
  have hv : valBE 10 (dsa ++ (fd ++ List.replicate (18 - fd.length) 0))
      = a * 10 ^ 18 + valBE 10 fd * 10 ^ (18 - fd.length) := by
    rw [valBE_append, hlen2, valBE_append_replicate_zero, hval]
  rw [hv]
  rfl

/-- Parsing a canonical decimal string with no dot yields the hex rendering
of the value scaled by 10^18. -/
lemma formatAmountToHex_int (a : Nat) :
    formatAmountToHex (decString a) = some (natToHex64 (a * 10 ^ 18)) := by
  obtain ⟨dsa, hdata, hdsa, hval⟩ := decString_digits a
  have hnodot : ∀ c ∈ (decString a).data, c ≠ '.' := by
    rw [hdata]
    intro c hc
    obtain ⟨d, hdm, rfl⟩ := List.mem_map.mp hc
    exact digitChar_ne_dot (hdsa d hdm)
  have hsplit : splitAtDot (decString a).data = ((decString a).data, none) :=
    splitAtDot_no_dot _ hnodot
  simp only [formatAmountToHex, hsplit, Option.getD_none, List.nil_append]
  have htake : (List.replicate 18 '0').take 18 = List.replicate 18 '0' := by
    rw [List.take_replicate]
    simp
  rw [htake]
  have hcat : (decString a).data ++ List.replicate 18 '0'
      = (dsa ++ List.replicate 18 0).map digitChar := by
    rw [hdata]
    simp [List.map_append, List.map_replicate,
      show digitChar 0 = '0' from rfl]
  have hbounds : ∀ d ∈ dsa ++ List.replicate 18 0, d < 10 := by
    intro d hmem
    rcases List.mem_append.mp hmem with h | h
    · exact hdsa d h
    · have := List.eq_of_mem_replicate h; omega
  rw [hcat, parseDigitsAux_valBE 10 decDigitVal digitChar
    (fun d hdig => decDigitVal_digitChar hdig) _ hbounds,
    valBE_append_replicate_zero, hval]
  rfl

/-- Rendering an exact integer multiple of 10^18 gives back the integer's
decimal string. -/
lemma renderAmount_int (a : Nat) : renderAmount (a * 10 ^ 18) = decString a := by
  have h := renderAmount_eq a [] (by simp) (by simp)
  simpa [valBE] using h

/-- Canonicalizing a decimal string with a fractional part trims the
fractional part's trailing zeros. -/
lemma canonicalAmount_frac (a : Nat) (fd : List Nat) :
    canonicalAmount (decString a ++ "." ++ String.mk (fd.map digitChar))
      = (if (((fd.map digitChar).reverse.dropWhile
              (fun c => c = '0')).reverse).isEmpty
         then decString a
         else decString a ++ "." ++ String.mk
            (((fd.map digitChar).reverse.dropWhile
              (fun c => c = '0')).reverse)) := by
  obtain ⟨dsa, hdata, hdsa, _⟩ := decString_digits a
  have hnodot : ∀ c ∈ dsa.map digitChar, c ≠ '.' := by
    intro c hc
    obtain ⟨d, hdm, rfl⟩ := List.mem_map.mp hc
    exact digitChar_ne_dot (hdsa d hdm)
  have hd : (decString a ++ "." ++ String.mk (fd.map digitChar)).data
      = dsa.map digitChar ++ '.' :: fd.map digitChar := by
    have e1 : (decString a ++ "." ++ String.mk (fd.map digitChar)).data
        = ((decString a).data ++ ['.']) ++ fd.map digitChar := rfl
    rw [e1, hdata, List.append_assoc]
    rfl
  have hsplit : splitAtDot
        (decString a ++ "." ++ String.mk (fd.map digitChar)).data
      = (dsa.map digitChar, some (fd.map digitChar)) := by
    rw [hd]
    exact splitAtDot_append_dot _ _ hnodot
  simp only [canonicalAmount, hsplit]
  rw [← hdata, stringMk_data]

/-- Canonicalizing a dot-free decimal string is the identity. -/
lemma canonicalAmount_int (a : Nat) :
    canonicalAmount (decString a) = decString a := by
  obtain ⟨dsa, hdata, hdsa, _⟩ := decString_digits a
  have hnodot : ∀ c ∈ (decString a).data, c ≠ '.' := by
    rw [hdata]
    intro c hc
    obtain ⟨d, hdm, rfl⟩ := List.mem_map.mp hc
    exact digitChar_ne_dot (hdsa d hdm)
  have hsplit : splitAtDot (decString a).data = ((decString a).data, none) :=
    splitAtDot_no_dot _ hnodot
  simp only [canonicalAmount, hsplit]

/- =================== Claim theorems: numeric codec ======================= -/

/-- C7 counterexample: the claim as stated quantifies over every
non-negative decimal string with at most 18 fractional digits, and defines
the canonical form as stripping insignificant trailing zeros only.  For the
decimal string `"007"` the round trip returns `"7"`, but the claimed
canonical form of `"007"` is `"007"` itself, so the round-trip equation
fails there. -/
theorem amount_codec_roundtrip_counterexample :
    (formatAmountToHex "007").bind formatHexToAmount = some "7"
      ∧ canonicalAmount "007" = "007"
      ∧ ("7" : String) ≠ "007" :=
  ⟨by decide, by decide, by decide⟩

/-- C7 (amended): for every decimal string in canonical integer form —
`decString a` for the integer part (no leading zeros), optionally followed
by `.` and a fractional string of at most 18 decimal digits — converting to
the 256-bit scaled hex form and back yields the canonical form of the
input, which strips insignificant trailing zeros of the fractional part. -/
theorem amount_codec_roundtrip_canonical (a : Nat) (fd : List Nat)
    (hfd : ∀ d ∈ fd, d < 10) (hlen : fd.length ≤ 18) :
    ((formatAmountToHex
          (decString a ++ "." ++ String.mk (fd.map digitChar))).bind
        formatHexToAmount
      = some (canonicalAmount
          (decString a ++ "." ++ String.mk (fd.map digitChar))))
    ∧ ((formatAmountToHex (decString a)).bind formatHexToAmount
      = some (canonicalAmount (decString a))) := by
  constructor
  · rw [formatAmountToHex_frac a fd hfd hlen, Option.some_bind,
      formatHexToAmount_natToHex64, renderAmount_eq a fd hfd hlen,
      canonicalAmount_frac]
  · rw [formatAmountToHex_int, Option.some_bind, formatHexToAmount_natToHex64,
      renderAmount_int, canonicalAmount_int]

/-- Witness for C7 (amended) at the concrete input `"1.5"`. -/
theorem amount_codec_roundtrip_witness :
    (formatAmountToHex
        (decString 1 ++ "." ++ String.mk ([5].map digitChar))).bind
      formatHexToAmount
      = some (canonicalAmount
          (decString 1 ++ "." ++ String.mk ([5].map digitChar))) :=
  (amount_codec_roundtrip_canonical 1 [5] (by decide) (by decide)).1

/-- C8: Scale correctness.  `formatAmountToHex "1"` encodes exactly the
integer 10^18 as an unsigned big-endian hex value: the output is `0x`
followed by 64 lower-case hex digits and ends in `0de0b6b3a7640000`,
computed by exact integer arithmetic (`natToHex64 (10 ^ 18)`). -/
theorem amount_to_hex_scale_exact :
    formatAmountToHex "1"
        = some "0x0000000000000000000000000000000000000000000000000de0b6b3a7640000"
      ∧ formatAmountToHex "1" = some (natToHex64 (10 ^ 18))
      ∧ natToHex64 (10 ^ 18)
        = "0x" ++ String.mk (List.replicate 48 '0') ++ "0de0b6b3a7640000"
      ∧ (natToHex64 (10 ^ 18)).length = 66 :=
  ⟨by decide, by decide, by decide, by decide⟩
